import Mathlib

/-!
# dotfiles-idle-blur-overlay

A shallow embedding of `src/bin/dotfiles-idle-blur-overlay.c`, a Wayland client that
maps one transparent layer-shell surface and waits for a signal.

The program is a straight line of library calls, a signal handler, four listener
callbacks and one loop.  It is
embedded as a state-passing function over

* `State`: the static variable `running`, the `registry_data` record the registry
  listener writes to, the listeners installed so far, the mapped memory, and an
  append-only log of every library or system call issued, each with the content of the
  mapped memory after the call (`log`; `trace` is the list of calls alone);
* `World`: what the outside answers: the value returned by each call whose result the
  program uses, and the events that arrive during each round-trip and each
  `wl_display_dispatch`.

A signal changes nothing but `running`, and `running` is read only by the loop test, so
a signal that arrives between two calls is indistinguishable from one that arrives
during the next round-trip or dispatch; signals are therefore events of those lists.
Nothing in the program makes a call of `wl_display_dispatch` return: the world decides
which calls return (`loop`), and which signals arrive during a call that does not
(`last`).
-/

namespace IdleBlurOverlay

/-! ## Constants of the included headers -/

/-- A pointer to a protocol object; `0` is `NULL`. -/
abbrev Handle := Nat

/-- Value of `wl_compositor_interface.name` (wayland-client-protocol.h). -/
def wl_compositor_interface_name : String := "wl_compositor"
/-- Modelled from the spec: `zwlr_layer_shell_v1_interface.name`, declared in the header
`wlr-layer-shell-unstable-v1-client-protocol.h`, which is not among the sources; it is
the interface name of the layer-shell capability. -/
def zwlr_layer_shell_v1_interface_name : String := "zwlr_layer_shell_v1"
/-- Value of `wl_shm_interface.name` (wayland-client-protocol.h). -/
def wl_shm_interface_name : String := "wl_shm"

/-- Modelled from the spec: the enumerator for the overlay layer, declared in the header
`wlr-layer-shell-unstable-v1-client-protocol.h`, which is not among the sources; the
protocol numbers the layers background 0, bottom 1, top 2, overlay 3. -/
def ZWLR_LAYER_SHELL_V1_LAYER_OVERLAY : Nat := 3
/-- Modelled from the spec: the anchor bit of the top edge, declared in the same missing
header; the protocol gives the four edges the bits 1, 2, 4 and 8. -/
def ZWLR_LAYER_SURFACE_V1_ANCHOR_TOP : Nat := 1
/-- Modelled from the spec: the anchor bit of the bottom edge, declared in the same
missing header. -/
def ZWLR_LAYER_SURFACE_V1_ANCHOR_BOTTOM : Nat := 2
/-- Modelled from the spec: the anchor bit of the left edge, declared in the same missing
header. -/
def ZWLR_LAYER_SURFACE_V1_ANCHOR_LEFT : Nat := 4
/-- Modelled from the spec: the anchor bit of the right edge, declared in the same missing
header. -/
def ZWLR_LAYER_SURFACE_V1_ANCHOR_RIGHT : Nat := 8
/-- Enumerator `argb8888` of `wl_shm.format`. -/
def WL_SHM_FORMAT_ARGB8888 : Nat := 0
/-- Flag of `memfd_create` (linux/memfd.h). -/
def MFD_CLOEXEC : Nat := 1
/-- Flag of `memfd_create` (linux/memfd.h). -/
def MFD_ALLOW_SEALING : Nat := 2
/-- Protection bit of `mmap` (sys/mman.h). -/
def PROT_READ : Nat := 1
/-- Protection bit of `mmap` (sys/mman.h). -/
def PROT_WRITE : Nat := 2
/-- Flag of `mmap` (sys/mman.h). -/
def MAP_SHARED : Nat := 1
/-- The pointer `(void *) -1` that `mmap` returns on failure. -/
def MAP_FAILED : Int := -1

/-- The two signals for which `main` installs `handle_signal`. -/
inductive Signal where
  | SIGTERM
  | SIGINT
  deriving DecidableEq, Repr

/-- A C `int` holding the mathematical value `x`, wrapped to 32 bits. -/
def wrap32 (x : Int) : Int := (x + 2147483648) % 4294967296 - 2147483648

/-! ## Calls and events -/

/-- One library or system call made by the program, with its arguments and, where the
call returns something, the value returned (`ret`). -/
inductive Call where
  | signal (sig : Signal)
  | display_connect (ret : Handle)
  | display_get_registry (display ret : Handle)
  | registry_add_listener (registry : Handle)
  | display_roundtrip (display : Handle)
  | registry_bind (registry : Handle) (name : Nat) (interface : String) (version : Nat)
      (ret : Handle)
  | display_disconnect (display : Handle)
  | compositor_create_surface (compositor ret : Handle)
  | get_layer_surface (layer_shell surface output : Handle) (layer : Nat) (nspace : String)
      (ret : Handle)
  | set_size (layer_surface : Handle) (width height : Nat)
  | set_anchor (layer_surface : Handle) (anchor : Nat)
  | set_exclusive_zone (layer_surface : Handle) (zone : Int)
  | set_keyboard_interactivity (layer_surface : Handle) (mode : Nat)
  | layer_surface_add_listener (layer_surface : Handle)
  | ack_configure (layer_surface : Handle) (serial : Nat)
  | memfd_create (name : String) (flags : Nat) (ret : Int)
  | ftruncate (fd : Int) (length : Int) (ret : Int)
  | mmap (length : Int) (prot flags : Nat) (fd : Int) (offset : Int) (ret : Int)
  | memset (data : Int) (c : Nat) (n : Int)
  | shm_create_pool (shm : Handle) (fd : Int) (size : Int) (ret : Handle)
  | shm_pool_create_buffer (pool : Handle) (offset width height stride : Int) (format : Nat)
      (ret : Handle)
  | shm_pool_destroy (pool : Handle)
  | close (fd : Int)
  | surface_attach (surface buffer : Handle) (x y : Int)
  | surface_commit (surface : Handle)
  | display_dispatch (display : Handle) (ret : Int)
  | munmap (data : Int) (length : Int)
  | buffer_destroy (buffer : Handle)
  | layer_surface_destroy (layer_surface : Handle)
  | surface_destroy (surface : Handle)
  deriving DecidableEq, Repr

/-- What can reach the process while it is inside `wl_display_roundtrip` or
`wl_display_dispatch`: a signal, or an event of the registry or of the layer surface. -/
inductive Event where
  | signal (sig : Signal)
  | global (name : Nat) (interface : String) (version : Nat)
  | global_remove (name : Nat)
  | configure (serial width height : Nat)
  | closed
  deriving DecidableEq, Repr

/-- The record `struct registry_data` (lines 50-54). -/
structure registry_data where
  compositor : Handle
  layer_shell : Handle
  shm : Handle
  deriving DecidableEq, Repr

/-- The answers of the outside world. -/
structure World where
  /-- result of `wl_display_connect` -/
  display : Handle
  /-- result of `wl_display_get_registry` -/
  registry : Handle
  /-- result of the `k`-th call of `wl_registry_bind` (counted from 0) -/
  bind : Nat → Handle
  /-- events arriving during the round-trip of line 116 -/
  roundtrip1 : List Event
  /-- result of `wl_compositor_create_surface` -/
  surface : Handle
  /-- result of `zwlr_layer_shell_v1_get_layer_surface` -/
  layer_surface : Handle
  /-- result of `memfd_create` -/
  memfd : Int
  /-- result of `ftruncate` -/
  ftruncate : Int
  /-- result of `mmap` -/
  mmap : Int
  /-- byte found at each offset of the fresh mapping -/
  mapped : Nat → Nat
  /-- result of `wl_shm_create_pool` -/
  pool : Handle
  /-- result of `wl_shm_pool_create_buffer` -/
  buffer : Handle
  /-- events arriving during the round-trip of line 201 -/
  roundtrip2 : List Event
  /-- one entry per call of `wl_display_dispatch` that returns: the events arriving
  during the call and the value it returns; after the last entry a further call
  blocks for ever -/
  loop : List (List Event × Int)
  /-- the signals arriving during that further call, the one that never returns -/
  last : List Signal

/-- The program state. -/
@[ext] structure State where
  /-- the static `running` (line 19) -/
  running : Int
  /-- the local `registry_data` of `main`, reached by the registry listener through its
  `data` pointer -/
  rd : registry_data
  /-- the registry proxy on which `registry_listener` is installed, if any -/
  registry_listener : Option Handle
  /-- the layer surface on which `layer_surface_listener` is installed, if any -/
  layer_listener : Option Handle
  /-- number of `wl_registry_bind` calls made so far -/
  binds : Nat
  /-- content of the mapped region, `none` while nothing is mapped -/
  mem : Option (List Nat)
  /-- every call made so far, oldest first, each with the content of the mapped region
  right after the call -/
  log : List (Call × Option (List Nat))
  /-- lines written to standard error -/
  stderr : List String

/-- State at program start: `running = 1` (line 19), nothing done yet. -/
def State.init : State :=
  { running := 1, rd := ⟨0, 0, 0⟩, registry_listener := none, layer_listener := none,
    binds := 0, mem := none, log := [], stderr := [] }

/-- Assignment to the `registry_data` record. -/
def State.set_rd (st : State) (rd : registry_data) : State :=
  { st with rd := rd }

/-- Installs `registry_listener` on a registry proxy. -/
def State.set_registry_listener (st : State) (registry : Handle) : State :=
  { st with registry_listener := some registry }

/-- Installs `layer_surface_listener` on a layer surface. -/
def State.set_layer_listener (st : State) (layer_surface : Handle) : State :=
  { st with layer_listener := some layer_surface }

/-- Replaces the content of the mapped region. -/
def State.set_mem (st : State) (m : Option (List Nat)) : State :=
  { st with mem := m }

/-- The calls made so far, oldest first. -/
def State.trace (st : State) : List Call :=
  st.log.map Prod.fst

/-- Records one call, and the memory content at that moment. -/
def call (c : Call) (st : State) : State :=
  { st with log := st.log ++ [(c, st.mem)] }

/-- Effect of `fprintf(stderr, msg)`. -/
def fprintf (msg : String) (st : State) : State :=
  { st with stderr := st.stderr ++ [msg] }

/-! ## The callbacks -/

/-- Lines 21-24. -/
def handle_signal (st : State) (_sig : Signal) : State :=
  { st with running := 0 }

/-- Lines 26-35. -/
def layer_surface_configure (st : State) (surface : Handle) (serial _width _height : Nat) :
    State :=
  call (.ack_configure surface serial) st

/-- Lines 37-42. -/
def layer_surface_closed (st : State) (_surface : Handle) : State :=
  { st with running := 0 }

/-- The call `wl_registry_bind(registry, name, &interface, version)`: the world supplies
the proxy returned. -/
def wl_registry_bind (w : World) (st : State) (registry : Handle) (name : Nat)
    (interface : String) (version : Nat) : Handle × State :=
  let ret := w.bind st.binds
  (ret, call (.registry_bind registry name interface version ret)
    { st with binds := st.binds + 1 })

/-- Lines 56-72; `strcmp(a, b) == 0` is equality of the two strings. -/
def registry_global (w : World) (st : State) (registry : Handle) (name : Nat)
    (interface : String) (_version : Nat) : State :=
  if interface = wl_compositor_interface_name then
    let r := wl_registry_bind w st registry name wl_compositor_interface_name 4
    { r.2 with rd := { r.2.rd with compositor := r.1 } }
  else if interface = zwlr_layer_shell_v1_interface_name then
    let r := wl_registry_bind w st registry name zwlr_layer_shell_v1_interface_name 4
    { r.2 with rd := { r.2.rd with layer_shell := r.1 } }
  else if interface = wl_shm_interface_name then
    let r := wl_registry_bind w st registry name wl_shm_interface_name 1
    { r.2 with rd := { r.2.rd with shm := r.1 } }
  else st

/-- Lines 74-79. -/
def registry_global_remove (st : State) (_registry : Handle) (_name : Nat) : State :=
  st

/-! ## Event delivery (the library side of the two listeners) -/

/-- Delivery of one event: a signal runs `handle_signal`; a protocol event runs the
callback of the listener installed on its object, and is dropped when the object has no
listener. -/
def dispatch_event (w : World) (st : State) : Event → State
  | .signal sig => handle_signal st sig
  | .global name interface version =>
      match st.registry_listener with
      | some registry => registry_global w st registry name interface version
      | none => st
  | .global_remove name =>
      match st.registry_listener with
      | some registry => registry_global_remove st registry name
      | none => st
  | .configure serial width height =>
      match st.layer_listener with
      | some surface => layer_surface_configure st surface serial width height
      | none => st
  | .closed =>
      match st.layer_listener with
      | some surface => layer_surface_closed st surface
      | none => st

/-- Delivery of a batch of events, in the order received. -/
def deliver (w : World) (evs : List Event) (st : State) : State :=
  evs.foldl (dispatch_event w) st

/-- The call `wl_display_roundtrip(display)` during which `evs` arrive. -/
def wl_display_roundtrip (w : World) (st : State) (display : Handle) (evs : List Event) :
    State :=
  deliver w evs (call (.display_roundtrip display) st)

/-- The call `wl_display_dispatch(display)` during which `evs` arrive and which returns
`ret`. -/
def wl_display_dispatch (w : World) (st : State) (display : Handle) (evs : List Event)
    (ret : Int) : State :=
  deliver w evs (call (.display_dispatch display ret) st)

/-! ## main -/

/-- How a run ends: `status = some n` after `return n`; `status = none` when the program
is blocked for ever inside `wl_display_dispatch`. -/
structure Outcome where
  status : Option Int
  st : State

/-- Lines 204-206: `while (running && wl_display_dispatch(display) != -1)`.  The flag
says whether the loop was left (`true`) or the program enters a dispatch that never
returns (`false`); the state is the one in which the loop is left or that last call is
made. -/
def event_loop (w : World) (display : Handle) : List (List Event × Int) → State → Bool × State
  | [], st => if st.running ≠ 0 then (false, st) else (true, st)
  | (evs, ret) :: rest, st =>
      if st.running ≠ 0 then
        let st1 := wl_display_dispatch w st display evs ret
        if ret ≠ -1 then event_loop w display rest st1 else (true, st1)
      else (true, st)

/-- Lines 101-103: the two calls of `signal`. -/
def install_handlers (st : State) : State :=
  call (.signal .SIGINT) (call (.signal .SIGTERM) st)

/-- Lines 113-116: the registry and its round-trip. -/
def discover (w : World) (st : State) (display : Handle) : State :=
  let st := st.set_rd ⟨0, 0, 0⟩
  let registry := w.registry
  let st := call (.display_get_registry display registry) st
  let st := call (.registry_add_listener registry) (st.set_registry_listener registry)
  wl_display_roundtrip w st display w.roundtrip1

/-- Lines 150-158: the five requests on the fresh layer surface. -/
def configure_role (st : State) (layer_surface : Handle) : State :=
  let st := call (.set_size layer_surface 0 0) st
  let st := call (.set_anchor layer_surface
    (ZWLR_LAYER_SURFACE_V1_ANCHOR_TOP ||| ZWLR_LAYER_SURFACE_V1_ANCHOR_BOTTOM |||
      ZWLR_LAYER_SURFACE_V1_ANCHOR_LEFT ||| ZWLR_LAYER_SURFACE_V1_ANCHOR_RIGHT)) st
  let st := call (.set_exclusive_zone layer_surface (-1)) st
  let st := call (.set_keyboard_interactivity layer_surface 0) st
  call (.layer_surface_add_listener layer_surface) (st.set_layer_listener layer_surface)

/-- Effect of `memset(data, c, n)` on a mapped region starting at `data`. -/
def memset (m : List Nat) (c : Nat) (n : Int) : List Nat :=
  List.replicate (min n.toNat m.length) c ++ m.drop n.toNat

/-- Lines 96-201 of `main`, up to the loop, with the two locals `width` and `height`, which
line 96 initialises to 1, as parameters.  `.error st` is a `return 1` reached in state
`st`; `.ok st` is the state in which line 204 is reached. -/
def setup (width height : Int) (w : World) : Except State State :=
  let stride := wrap32 (width * 4)
  let size := wrap32 (stride * height)
  let st := install_handlers State.init
  let display := w.display
  let st := call (.display_connect display) st
  if display = 0 then
    .error (fprintf "Failed to connect to Wayland display\n" st)
  else
  let st := discover w st display
  let compositor := st.rd.compositor
  let layer_shell := st.rd.layer_shell
  let shm := st.rd.shm
  if compositor = 0 ∨ layer_shell = 0 ∨ shm = 0 then
    let st := fprintf "Failed to get required Wayland interfaces\n" st
    let st := call (.display_disconnect display) st
    .error st
  else
  let surface := w.surface
  let st := call (.compositor_create_surface compositor surface) st
  if surface = 0 then
    let st := fprintf "Failed to create surface\n" st
    let st := call (.display_disconnect display) st
    .error st
  else
  let output : Handle := 0
  let layer_surface := w.layer_surface
  let st := call (.get_layer_surface layer_shell surface output
    ZWLR_LAYER_SHELL_V1_LAYER_OVERLAY "dotfiles-idle-blur" layer_surface) st
  if layer_surface = 0 then
    let st := fprintf "Failed to create layer surface\n" st
    let st := call (.surface_destroy surface) st
    let st := call (.display_disconnect display) st
    .error st
  else
  let st := configure_role st layer_surface
  let fd := w.memfd
  let st := call (.memfd_create "dotfiles-idle-blur" (MFD_CLOEXEC ||| MFD_ALLOW_SEALING) fd) st
  if fd < 0 then
    let st := fprintf "Failed to create memfd\n" st
    let st := call (.layer_surface_destroy layer_surface) st
    let st := call (.surface_destroy surface) st
    let st := call (.display_disconnect display) st
    .error st
  else
  let st := call (.ftruncate fd size w.ftruncate) st
  if w.ftruncate < 0 then
    let st := fprintf "Failed to truncate memfd\n" st
    let st := call (.close fd) st
    let st := call (.layer_surface_destroy layer_surface) st
    let st := call (.surface_destroy surface) st
    let st := call (.display_disconnect display) st
    .error st
  else
  let data := w.mmap
  if data = MAP_FAILED then
    let st := call (.mmap size (PROT_READ ||| PROT_WRITE) MAP_SHARED fd 0 data) st
    let st := fprintf "Failed to mmap buffer\n" st
    let st := call (.close fd) st
    let st := call (.layer_surface_destroy layer_surface) st
    let st := call (.surface_destroy surface) st
    let st := call (.display_disconnect display) st
    .error st
  else
  let st := call (.mmap size (PROT_READ ||| PROT_WRITE) MAP_SHARED fd 0 data)
    (st.set_mem (some ((List.range size.toNat).map w.mapped)))
  let st := call (.memset data 0 size) (st.set_mem (st.mem.map (memset · 0 size)))
  let pool := w.pool
  let st := call (.shm_create_pool shm fd size pool) st
  let buffer := w.buffer
  let st := call (.shm_pool_create_buffer pool 0 width height stride WL_SHM_FORMAT_ARGB8888
    buffer) st
  let st := call (.shm_pool_destroy pool) st
  let st := call (.close fd) st
  let st := call (.surface_attach surface buffer 0 0) st
  let st := call (.surface_commit surface) st
  let st := wl_display_roundtrip w st display w.roundtrip2
  .ok st

/-- Lines 208-215: the cleanup and `return 0`.  The locals it reads hold what the world
answered during setup. -/
def cleanup (width height : Int) (w : World) (st : State) : Outcome :=
  let size := wrap32 (wrap32 (width * 4) * height)
  let st := call (.munmap w.mmap size) (st.set_mem none)
  let st := call (.buffer_destroy w.buffer) st
  let st := call (.layer_surface_destroy w.layer_surface) st
  let st := call (.surface_destroy w.surface) st
  let st := call (.display_disconnect w.display) st
  ⟨some 0, st⟩

/-- A call of `wl_display_dispatch` that never returns: every signal arriving during it
runs `handle_signal`, and the call still does not return, so the test of line 204 is
not reached again.  The call has no return value and is not logged. -/
def pending_dispatch (w : World) (st : State) : State :=
  w.last.foldl handle_signal st

/-- The body of `main` (lines 86-216): setup, the loop of line 204, cleanup. -/
def main_sized (width height : Int) (w : World) : Outcome :=
  match setup width height w with
  | .error st => ⟨some 1, st⟩
  | .ok st =>
    match event_loop w w.display w.loop st with
    | (false, st) => ⟨none, pending_dispatch w st⟩
    | (true, st) => cleanup width height w st

/-- The program: `int width = 1, height = 1;` (line 96). -/
def main (w : World) : Outcome :=
  main_sized 1 1 w

/-! ## Vocabulary of the statements -/

/-- The state after line 116 in a run whose connection succeeded. -/
def discovered (w : World) : State :=
  discover w (call (.display_connect w.display) (install_handlers State.init)) w.display

/-- The three capability slots as `main` reads them at lines 118-120. -/
def bound (w : World) : registry_data :=
  (discovered w).rd

/-- The call is a `wl_registry_bind`. -/
def Call.isBind : Call → Bool
  | .registry_bind .. => true
  | _ => false

/-- The call is a `wl_display_dispatch`. -/
def Call.isDispatch : Call → Bool
  | .display_dispatch .. => true
  | _ => false

/-- The relation `Frame st st1 T`: between `st` and `st1` exactly the calls `T` were made, the mapped
memory was not touched, no listener was installed and nothing was printed. -/
structure Frame (st st1 : State) (T : List Call) : Prop where
  log : st1.log = st.log ++ T.map (fun c => (c, st.mem))
  mem : st1.mem = st.mem
  registry_listener : st1.registry_listener = st.registry_listener
  layer_listener : st1.layer_listener = st.layer_listener
  stderr : st1.stderr = st.stderr

/-- The event sets `running` to 0 when its callback runs: a signal or `closed`. -/
def Event.isStop : Event → Bool
  | .signal _ => true
  | .closed => true
  | _ => false

/-- The acknowledgments among the calls, oldest first: layer surface and serial. -/
def acks (t : List Call) : List (Handle × Nat) :=
  t.filterMap fun c =>
    match c with
    | .ack_configure surface serial => some (surface, serial)
    | _ => none

/-- The serials of the configure events among the events, in the order received. -/
def configure_serials (evs : List Event) : List Nat :=
  evs.filterMap fun e =>
    match e with
    | .configure serial _ _ => some serial
    | _ => none

/-- Every step of setup succeeds: the connection, the three capabilities, the surface,
the layer surface, the memory file, its resizing and its mapping. -/
def SetupSucceeds (w : World) : Prop :=
  w.display ≠ 0 ∧ (bound w).compositor ≠ 0 ∧ (bound w).layer_shell ≠ 0 ∧ (bound w).shm ≠ 0 ∧
    w.surface ≠ 0 ∧ w.layer_surface ≠ 0 ∧ 0 ≤ w.memfd ∧ 0 ≤ w.ftruncate ∧ w.mmap ≠ MAP_FAILED

instance (w : World) : Decidable (SetupSucceeds w) := by
  unfold SetupSucceeds
  infer_instance

/-- The five releases of lines 209-213, in program order. -/
def teardown_calls (width height : Int) (w : World) : List Call :=
  [.munmap w.mmap (wrap32 (wrap32 (width * 4) * height)), .buffer_destroy w.buffer,
    .layer_surface_destroy w.layer_surface, .surface_destroy w.surface,
    .display_disconnect w.display]

/-- The call is one of the releases of the cleanup: `munmap` or the destruction of the
buffer, the layer surface, the surface or the connection. -/
def Call.isRelease : Call → Bool
  | .munmap .. => true
  | .buffer_destroy .. => true
  | .layer_surface_destroy .. => true
  | .surface_destroy .. => true
  | .display_disconnect .. => true
  | _ => false

/-- The call is a request a listener may send in state `st`: a bind, or an
acknowledgment on the layer surface that carries the listener. -/
def HandlerCall (st : State) (c : Call) : Prop :=
  c.isBind = true ∨ ∃ surface serial, st.layer_listener = some surface ∧
    c = .ack_configure surface serial

/-- The six calls of lines 102-116, up to the first round-trip, in a run whose connection
succeeded. -/
def discover_calls (w : World) : List Call :=
  [.signal .SIGTERM, .signal .SIGINT, .display_connect w.display,
    .display_get_registry w.display w.registry, .registry_add_listener w.registry,
    .display_roundtrip w.display]

/-- The call is a `wl_display_dispatch` or a request of a listener. -/
def LoopCall (st : State) (c : Call) : Prop :=
  c.isDispatch = true ∨ HandlerCall st c

/-- The mapped region after line 190: `size` zero bytes. -/
def zeros (width height : Int) : List Nat :=
  List.replicate (wrap32 (wrap32 (width * 4) * height)).toNat 0

/-- The calls of lines 129-200 in a run whose setup succeeds, each with the content of
the mapped region after it. -/
def setup_log (width height : Int) (w : World) : List (Call × Option (List Nat)) :=
  let stride := wrap32 (width * 4)
  let size := wrap32 (stride * height)
  [(.compositor_create_surface (bound w).compositor w.surface, none),
   (.get_layer_surface (bound w).layer_shell w.surface 0 ZWLR_LAYER_SHELL_V1_LAYER_OVERLAY
      "dotfiles-idle-blur" w.layer_surface, none),
   (.set_size w.layer_surface 0 0, none),
   (.set_anchor w.layer_surface
      (ZWLR_LAYER_SURFACE_V1_ANCHOR_TOP ||| ZWLR_LAYER_SURFACE_V1_ANCHOR_BOTTOM |||
        ZWLR_LAYER_SURFACE_V1_ANCHOR_LEFT ||| ZWLR_LAYER_SURFACE_V1_ANCHOR_RIGHT), none),
   (.set_exclusive_zone w.layer_surface (-1), none),
   (.set_keyboard_interactivity w.layer_surface 0, none),
   (.layer_surface_add_listener w.layer_surface, none),
   (.memfd_create "dotfiles-idle-blur" (MFD_CLOEXEC ||| MFD_ALLOW_SEALING) w.memfd, none),
   (.ftruncate w.memfd size w.ftruncate, none),
   (.mmap size (PROT_READ ||| PROT_WRITE) MAP_SHARED w.memfd 0 w.mmap,
      some ((List.range size.toNat).map w.mapped)),
   (.memset w.mmap 0 size, some (zeros width height)),
   (.shm_create_pool (bound w).shm w.memfd size w.pool, some (zeros width height)),
   (.shm_pool_create_buffer w.pool 0 width height stride WL_SHM_FORMAT_ARGB8888 w.buffer,
      some (zeros width height)),
   (.shm_pool_destroy w.pool, some (zeros width height)),
   (.close w.memfd, some (zeros width height)),
   (.surface_attach w.surface w.buffer 0 0, some (zeros width height)),
   (.surface_commit w.surface, some (zeros width height))]

/-- The state after line 200 in a run whose setup succeeds. -/
def committed (width height : Int) (w : World) : State :=
  { discovered w with
    layer_listener := some w.layer_surface
    mem := some (zeros width height)
    log := (discovered w).log ++ setup_log width height w }

/-- The call creates a surface, a layer surface, a memory file, a pool or a buffer, or
attaches or commits. -/
def Call.isSurfaceOrBuffer : Call → Bool
  | .compositor_create_surface .. => true
  | .get_layer_surface .. => true
  | .memfd_create .. => true
  | .shm_create_pool .. => true
  | .shm_pool_create_buffer .. => true
  | .surface_attach .. => true
  | .surface_commit .. => true
  | _ => false

/-- The call is `wl_surface_attach` or `wl_surface_commit`. -/
def Call.isAttachOrCommit : Call → Bool
  | .surface_attach .. => true
  | .surface_commit .. => true
  | _ => false

/-- The call is `wl_surface_commit`. -/
def Call.isCommit : Call → Bool
  | .surface_commit .. => true
  | _ => false

/-- The events that reach the listeners of a run whose setup succeeded and that made `k`
calls of `wl_display_dispatch`: those of the second round-trip, then those of the
first `k` dispatch calls. -/
def World.delivered (w : World) (k : Nat) : List Event :=
  w.roundtrip2 ++ (w.loop.take k).flatMap Prod.fst

/-- The call is made while events are awaited or handled: a round-trip, a dispatch, or a
request of a listener. -/
def Call.isListening : Call → Bool
  | .display_roundtrip .. => true
  | .display_dispatch .. => true
  | .registry_bind .. => true
  | .ack_configure .. => true
  | _ => false

/-- The state after line 201 in a run whose setup succeeds. -/
def entered (width height : Int) (w : World) : State :=
  wl_display_roundtrip w (committed width height w) w.display w.roundtrip2

/-- The loop of line 204 run from that state: whether it was left, and the state then. -/
def looped (width height : Int) (w : World) : Bool × State :=
  event_loop w w.display w.loop (entered width height w)

/-- A server that advertises the three capabilities and a seat, configures the surface
once during the second round-trip and once in the loop; SIGTERM arrives during the
second dispatch. -/
def sample_world : World :=
  { display := 1, registry := 2, bind := fun k => 3 + k,
    roundtrip1 := [.global 1 "wl_compositor" 5, .global 2 "wl_shm" 1,
      .global 3 "zwlr_layer_shell_v1" 4, .global 4 "wl_seat" 7],
    surface := 10, layer_surface := 11, memfd := 5, ftruncate := 0, mmap := 4096,
    mapped := fun i => 170 + i, pool := 12, buffer := 13,
    roundtrip2 := [.configure 7 1920 1080],
    loop := [([.configure 8 1920 1080], 1), ([.signal .SIGTERM], 0)],
    last := [] }

/-- A server that advertises no layer shell. -/
def world_without_layer_shell : World :=
  { sample_world with
    roundtrip1 := [.global 1 "wl_compositor" 5, .global 2 "wl_shm" 1, .global 4 "wl_seat" 7] }

/-- The calls of `wl_display_dispatch` that returned, oldest first: display and value
returned. -/
def dispatches (t : List Call) : List (Handle × Int) :=
  t.filterMap fun c =>
    match c with
    | .display_dispatch display ret => some (display, ret)
    | _ => none

/-- The sample server, except that the second dispatch never returns, and SIGTERM arrives
during it. -/
def world_signal_while_blocked : World :=
  { sample_world with loop := [([.configure 8 1920 1080], 1)], last := [.SIGTERM] }

/-- The sample server, except that the second dispatch reports a fatal connection error
and no signal arrives. -/
def world_dispatch_error : World :=
  { sample_world with loop := [([.configure 8 1920 1080], 1), ([], -1)] }

/-- The sample server, except that the server closes the layer surface during the second
round-trip. -/
def world_closed_early : World :=
  { sample_world with roundtrip2 := [.configure 7 1920 1080, .closed] }

/-- Some signal or `closed` event is among the events the world delivers. -/
def World.delivers_stop (w : World) : Prop :=
  ∃ e : Event, e.isStop = true ∧
    (e ∈ w.roundtrip1 ∨ e ∈ w.roundtrip2 ∨ ∃ s ∈ w.loop, e ∈ s.1)

/-- The objects whose release the failure paths of setup take care of. -/
inductive Resource where
  | connection (display : Handle)
  | surface (surface : Handle)
  | layer_surface (layer_surface : Handle)
  | fd (fd : Int)
  deriving DecidableEq, Repr

/-- The object a call has created, if it succeeded in creating one. -/
def Call.creates : Call → Option Resource
  | .display_connect ret => if ret ≠ 0 then some (.connection ret) else none
  | .compositor_create_surface _ ret => if ret ≠ 0 then some (.surface ret) else none
  | .get_layer_surface _ _ _ _ _ ret => if ret ≠ 0 then some (.layer_surface ret) else none
  | .memfd_create _ _ ret => if 0 ≤ ret then some (.fd ret) else none
  | _ => none

/-- The object a call releases. -/
def Call.releases : Call → Option Resource
  | .close fd => some (.fd fd)
  | .layer_surface_destroy layer_surface => some (.layer_surface layer_surface)
  | .surface_destroy surface => some (.surface surface)
  | .display_disconnect display => some (.connection display)
  | _ => none

/-- The sample server, except that resizing the memory file fails. -/
def world_ftruncate_fails : World :=
  { sample_world with ftruncate := -1 }

/-! ## Basic facts -/

section Basic

variable (w : World) (c : Call) (st : State) (msg : String)

@[simp] theorem call_log : (call c st).log = st.log ++ [(c, st.mem)] := rfl
@[simp] theorem call_mem : (call c st).mem = st.mem := rfl
@[simp] theorem call_running : (call c st).running = st.running := rfl
@[simp] theorem call_rd : (call c st).rd = st.rd := rfl
@[simp] theorem call_registry_listener :
    (call c st).registry_listener = st.registry_listener := rfl
@[simp] theorem call_layer_listener : (call c st).layer_listener = st.layer_listener := rfl
@[simp] theorem call_binds : (call c st).binds = st.binds := rfl
@[simp] theorem call_stderr : (call c st).stderr = st.stderr := rfl
@[simp] theorem call_trace : (call c st).trace = st.trace ++ [c] := by
  simp [State.trace]

@[simp] theorem fprintf_log : (fprintf msg st).log = st.log := rfl
@[simp] theorem fprintf_trace : (fprintf msg st).trace = st.trace := rfl
@[simp] theorem fprintf_mem : (fprintf msg st).mem = st.mem := rfl
@[simp] theorem fprintf_running : (fprintf msg st).running = st.running := rfl
@[simp] theorem fprintf_rd : (fprintf msg st).rd = st.rd := rfl

@[simp] theorem set_rd_running (st : State) (rd : registry_data) : (st.set_rd rd).running = st.running := rfl
@[simp] theorem set_rd_rd (st : State) (rd : registry_data) : (st.set_rd rd).rd = rd := rfl
@[simp] theorem set_rd_registry_listener (st : State) (rd : registry_data) : (st.set_rd rd).registry_listener = st.registry_listener := rfl
@[simp] theorem set_rd_layer_listener (st : State) (rd : registry_data) : (st.set_rd rd).layer_listener = st.layer_listener := rfl
@[simp] theorem set_rd_binds (st : State) (rd : registry_data) : (st.set_rd rd).binds = st.binds := rfl
@[simp] theorem set_rd_mem (st : State) (rd : registry_data) : (st.set_rd rd).mem = st.mem := rfl
@[simp] theorem set_rd_log (st : State) (rd : registry_data) : (st.set_rd rd).log = st.log := rfl
@[simp] theorem set_rd_stderr (st : State) (rd : registry_data) : (st.set_rd rd).stderr = st.stderr := rfl
@[simp] theorem set_rd_trace (st : State) (rd : registry_data) : (st.set_rd rd).trace = st.trace := rfl
@[simp] theorem set_registry_listener_running (st : State) (h : Handle) : (st.set_registry_listener h).running = st.running := rfl
@[simp] theorem set_registry_listener_rd (st : State) (h : Handle) : (st.set_registry_listener h).rd = st.rd := rfl
@[simp] theorem set_registry_listener_registry_listener (st : State) (h : Handle) : (st.set_registry_listener h).registry_listener = some h := rfl
@[simp] theorem set_registry_listener_layer_listener (st : State) (h : Handle) : (st.set_registry_listener h).layer_listener = st.layer_listener := rfl
@[simp] theorem set_registry_listener_binds (st : State) (h : Handle) : (st.set_registry_listener h).binds = st.binds := rfl
@[simp] theorem set_registry_listener_mem (st : State) (h : Handle) : (st.set_registry_listener h).mem = st.mem := rfl
@[simp] theorem set_registry_listener_log (st : State) (h : Handle) : (st.set_registry_listener h).log = st.log := rfl
@[simp] theorem set_registry_listener_stderr (st : State) (h : Handle) : (st.set_registry_listener h).stderr = st.stderr := rfl
@[simp] theorem set_registry_listener_trace (st : State) (h : Handle) : (st.set_registry_listener h).trace = st.trace := rfl
@[simp] theorem set_layer_listener_running (st : State) (h : Handle) : (st.set_layer_listener h).running = st.running := rfl
@[simp] theorem set_layer_listener_rd (st : State) (h : Handle) : (st.set_layer_listener h).rd = st.rd := rfl
@[simp] theorem set_layer_listener_registry_listener (st : State) (h : Handle) : (st.set_layer_listener h).registry_listener = st.registry_listener := rfl
@[simp] theorem set_layer_listener_layer_listener (st : State) (h : Handle) : (st.set_layer_listener h).layer_listener = some h := rfl
@[simp] theorem set_layer_listener_binds (st : State) (h : Handle) : (st.set_layer_listener h).binds = st.binds := rfl
@[simp] theorem set_layer_listener_mem (st : State) (h : Handle) : (st.set_layer_listener h).mem = st.mem := rfl
@[simp] theorem set_layer_listener_log (st : State) (h : Handle) : (st.set_layer_listener h).log = st.log := rfl
@[simp] theorem set_layer_listener_stderr (st : State) (h : Handle) : (st.set_layer_listener h).stderr = st.stderr := rfl
@[simp] theorem set_layer_listener_trace (st : State) (h : Handle) : (st.set_layer_listener h).trace = st.trace := rfl
@[simp] theorem set_mem_running (st : State) (m : Option (List Nat)) : (st.set_mem m).running = st.running := rfl
@[simp] theorem set_mem_rd (st : State) (m : Option (List Nat)) : (st.set_mem m).rd = st.rd := rfl
@[simp] theorem set_mem_registry_listener (st : State) (m : Option (List Nat)) : (st.set_mem m).registry_listener = st.registry_listener := rfl
@[simp] theorem set_mem_layer_listener (st : State) (m : Option (List Nat)) : (st.set_mem m).layer_listener = st.layer_listener := rfl
@[simp] theorem set_mem_binds (st : State) (m : Option (List Nat)) : (st.set_mem m).binds = st.binds := rfl
@[simp] theorem set_mem_mem (st : State) (m : Option (List Nat)) : (st.set_mem m).mem = m := rfl
@[simp] theorem set_mem_log (st : State) (m : Option (List Nat)) : (st.set_mem m).log = st.log := rfl
@[simp] theorem set_mem_stderr (st : State) (m : Option (List Nat)) : (st.set_mem m).stderr = st.stderr := rfl
@[simp] theorem set_mem_trace (st : State) (m : Option (List Nat)) : (st.set_mem m).trace = st.trace := rfl

theorem Call.not_other_of_isBind (c : Call) (h : c.isBind = true) :
    c.isRelease = false ∧ c.isDispatch = false ∧ c.isAttachOrCommit = false ∧
      c.isSurfaceOrBuffer = false ∧ c.isListening = true := by
  cases c <;> first | exact ⟨rfl, rfl, rfl, rfl, rfl⟩ | exact Bool.noConfusion h

theorem Call.not_other_of_isListening (c : Call) (h : c.isListening = true) :
    c.isRelease = false ∧ c.isAttachOrCommit = false ∧ c.isSurfaceOrBuffer = false := by
  cases c <;> first | exact ⟨rfl, rfl, rfl⟩ | exact Bool.noConfusion h

theorem Call.isListening_of_isDispatch (c : Call) (h : c.isDispatch = true) :
    c.isListening = true := by
  cases c <;> first | rfl | exact Bool.noConfusion h

theorem Call.isAttachOrCommit_of_isCommit (c : Call) (h : c.isCommit = true) :
    c.isAttachOrCommit = true := by
  cases c <;> first | rfl | exact Bool.noConfusion h

theorem Call.isCommit_false (c : Call) (h : c.isAttachOrCommit = false) :
    c.isCommit = false := by
  cases c <;> first | rfl | exact Bool.noConfusion h

theorem Frame.rfl_nil : Frame st st [] :=
  ⟨by simp, rfl, rfl, rfl, rfl⟩

theorem Frame.call : Frame st (call c st) [c] :=
  ⟨by simp, rfl, rfl, rfl, rfl⟩

theorem Frame.trans {a b d : State} {T U : List Call} (h1 : Frame a b T) (h2 : Frame b d U) :
    Frame a d (T ++ U) :=
  ⟨by rw [h2.log, h1.log, h1.mem]; simp, h2.mem.trans h1.mem,
    h2.registry_listener.trans h1.registry_listener,
    h2.layer_listener.trans h1.layer_listener, h2.stderr.trans h1.stderr⟩

theorem Frame.trace {a b : State} {T : List Call} (h : Frame a b T) :
    b.trace = a.trace ++ T := by
  simp [State.trace, h.log, Function.comp_def]

theorem frame_dispatch_event (e : Event) :
    ∃ T, Frame st (dispatch_event w st e) T ∧ ∀ c ∈ T, HandlerCall st c := by
  cases e with
  | signal sig => exact ⟨[], ⟨by simp [dispatch_event, handle_signal], rfl, rfl, rfl, rfl⟩, by simp⟩
  | global name interface version =>
    unfold dispatch_event
    cases hl : st.registry_listener with
    | none => exact ⟨[], Frame.rfl_nil st, by simp⟩
    | some registry =>
      simp only [registry_global, wl_registry_bind]
      split_ifs
      · exact ⟨[.registry_bind registry name wl_compositor_interface_name 4 (w.bind st.binds)],
          ⟨by simp, rfl, hl.symm ▸ rfl, rfl, rfl⟩, by simp [HandlerCall, Call.isBind]⟩
      · exact ⟨[.registry_bind registry name zwlr_layer_shell_v1_interface_name 4
          (w.bind st.binds)],
          ⟨by simp, rfl, hl.symm ▸ rfl, rfl, rfl⟩, by simp [HandlerCall, Call.isBind]⟩
      · exact ⟨[.registry_bind registry name wl_shm_interface_name 1 (w.bind st.binds)],
          ⟨by simp, rfl, hl.symm ▸ rfl, rfl, rfl⟩, by simp [HandlerCall, Call.isBind]⟩
      · exact ⟨[], ⟨by simp, rfl, hl.symm ▸ rfl, rfl, rfl⟩, by simp⟩
  | global_remove name =>
    unfold dispatch_event
    cases st.registry_listener <;> exact ⟨[], Frame.rfl_nil st, by simp⟩
  | configure serial width height =>
    unfold dispatch_event
    cases hl : st.layer_listener with
    | none => exact ⟨[], Frame.rfl_nil st, by simp⟩
    | some surface =>
      exact ⟨[.ack_configure surface serial], Frame.call _ st, by simp [HandlerCall, hl]⟩
  | closed =>
    unfold dispatch_event
    cases st.layer_listener with
    | none => exact ⟨[], Frame.rfl_nil st, by simp⟩
    | some surface =>
      exact ⟨[], ⟨by simp [layer_surface_closed], rfl, rfl, rfl, rfl⟩, by simp⟩

theorem frame_deliver (evs : List Event) :
    ∃ T, Frame st (deliver w evs st) T ∧ ∀ c ∈ T, HandlerCall st c := by
  induction evs generalizing st with
  | nil => exact ⟨[], Frame.rfl_nil st, by simp⟩
  | cons e evs ih =>
    obtain ⟨T, hT, hTc⟩ := frame_dispatch_event w st e
    obtain ⟨U, hU, hUc⟩ := ih (dispatch_event w st e)
    refine ⟨T ++ U, hT.trans hU, ?_⟩
    intro c hc
    rcases List.mem_append.1 hc with h | h
    · exact hTc c h
    · have := hUc c h
      simpa [HandlerCall, hT.layer_listener] using this

theorem dispatch_event_running (e : Event) :
    (dispatch_event w st e).running = st.running ∨
      ((dispatch_event w st e).running = 0 ∧ e.isStop = true) := by
  cases e with
  | signal sig => right; simp [dispatch_event, handle_signal, Event.isStop]
  | global name interface version =>
    left
    unfold dispatch_event
    cases st.registry_listener with
    | none => rfl
    | some registry =>
      simp only [registry_global, wl_registry_bind]
      split_ifs <;> rfl
  | global_remove name =>
    left
    unfold dispatch_event
    cases st.registry_listener <;> rfl
  | configure serial width height =>
    left
    unfold dispatch_event
    cases st.layer_listener <;> rfl
  | closed =>
    unfold dispatch_event
    cases st.layer_listener with
    | none => left; rfl
    | some surface => right; simp [layer_surface_closed, Event.isStop]

theorem deliver_cons (e : Event) (evs : List Event) :
    deliver w (e :: evs) st = deliver w evs (dispatch_event w st e) := rfl

theorem deliver_running (evs : List Event) :
    (deliver w evs st).running = st.running ∨
      ((deliver w evs st).running = 0 ∧ ∃ e ∈ evs, e.isStop = true) := by
  induction evs generalizing st with
  | nil => left; rfl
  | cons e evs ih =>
    rw [deliver_cons]
    rcases ih (dispatch_event w st e) with h | ⟨h, e1, he1, hs⟩
    · rcases dispatch_event_running w st e with h1 | ⟨h1, hs⟩
      · left; rw [h, h1]
      · right; exact ⟨by rw [h, h1], e, by simp, hs⟩
    · right; exact ⟨h, e1, by simp [he1], hs⟩

theorem deliver_running_signal (evs : List Event) (hl : st.layer_listener = none) :
    (deliver w evs st).running = st.running ∨
      ((deliver w evs st).running = 0 ∧ ∃ sig, Event.signal sig ∈ evs) := by
  induction evs generalizing st with
  | nil => left; rfl
  | cons e evs ih =>
    rw [deliver_cons]
    have hl1 : (dispatch_event w st e).layer_listener = none := by
      obtain ⟨_, hT, _⟩ := frame_dispatch_event w st e
      rw [hT.layer_listener, hl]
    rcases ih (dispatch_event w st e) hl1 with h | ⟨h, sig, hs⟩
    · cases e with
      | signal sig =>
        right
        exact ⟨by rw [h]; rfl, sig, by simp⟩
      | closed => left; rw [h]; simp [dispatch_event, hl]
      | configure serial width height => left; rw [h]; simp [dispatch_event, hl]
      | global_remove name =>
        left; rw [h]; unfold dispatch_event; cases st.registry_listener <;> rfl
      | global name interface version =>
        left; rw [h]
        rcases dispatch_event_running w st (.global name interface version) with h1 | ⟨_, h1⟩
        · exact h1
        · simp [Event.isStop] at h1
    · right; exact ⟨h, sig, by simp [hs]⟩

theorem deliver_running_zero (evs : List Event) (h : st.running = 0) :
    (deliver w evs st).running = 0 := by
  rcases deliver_running w st evs with h1 | ⟨h1, _⟩
  · rw [h1, h]
  · exact h1

theorem deliver_append (xs ys : List Event) :
    deliver w (xs ++ ys) st = deliver w ys (deliver w xs st) := by
  simp [deliver, List.foldl_append]

theorem deliver_signal (evs : List Event) (sig : Signal) (h : Event.signal sig ∈ evs) :
    (deliver w evs st).running = 0 := by
  obtain ⟨xs, ys, rfl⟩ := List.append_of_mem h
  rw [deliver_append, deliver_cons]
  exact deliver_running_zero w _ ys rfl

theorem deliver_layer_listener (evs : List Event) :
    (deliver w evs st).layer_listener = st.layer_listener := by
  obtain ⟨T, hT, _⟩ := frame_deliver w st evs
  exact hT.layer_listener

theorem deliver_closed (evs : List Event) (surface : Handle)
    (hl : st.layer_listener = some surface) (h : Event.closed ∈ evs) :
    (deliver w evs st).running = 0 := by
  obtain ⟨xs, ys, rfl⟩ := List.append_of_mem h
  rw [deliver_append, deliver_cons]
  apply deliver_running_zero
  have h1 : (deliver w xs st).layer_listener = some surface := by
    rw [deliver_layer_listener, hl]
  simp [dispatch_event, h1, layer_surface_closed]

theorem deliver_stop (evs : List Event) (surface : Handle)
    (hl : st.layer_listener = some surface) (e : Event) (he : e ∈ evs)
    (hs : e.isStop = true) : (deliver w evs st).running = 0 := by
  cases e with
  | signal sig => exact deliver_signal w st evs sig he
  | closed => exact deliver_closed w st evs surface hl he
  | global name interface version => simp [Event.isStop] at hs
  | global_remove name => simp [Event.isStop] at hs
  | configure serial width height => simp [Event.isStop] at hs

theorem deliver_acks (evs : List Event) :
    acks (deliver w evs st).trace = acks st.trace ++
      (match st.layer_listener with
        | some surface => (configure_serials evs).map (fun serial => (surface, serial))
        | none => []) := by
  induction evs generalizing st with
  | nil => cases st.layer_listener <;> simp [deliver, configure_serials]
  | cons e evs ih =>
    rw [deliver_cons, ih]
    obtain ⟨_, hT, _⟩ := frame_dispatch_event w st e
    rw [hT.layer_listener]
    cases e with
    | signal sig => simp [dispatch_event, handle_signal, State.trace, configure_serials]
    | global name interface version =>
      unfold dispatch_event
      cases st.registry_listener with
      | none => simp [configure_serials]
      | some registry =>
        simp only [registry_global, wl_registry_bind]
        split_ifs <;> simp [State.trace, acks, configure_serials]
    | global_remove name =>
      unfold dispatch_event
      cases st.registry_listener <;> simp [configure_serials, registry_global_remove]
    | configure serial width height =>
      unfold dispatch_event
      cases st.layer_listener with
      | none => simp
      | some surface =>
        simp [layer_surface_configure, acks, configure_serials]
    | closed =>
      unfold dispatch_event
      cases st.layer_listener with
      | none => simp
      | some surface => simp [layer_surface_closed, State.trace, configure_serials]

end Basic

/-! ## The loop -/

section Loop

variable (w : World) (d : Handle)

theorem event_loop_stopped (steps : List (List Event × Int)) (st : State)
    (h : st.running = 0) : event_loop w d steps st = (true, st) := by
  cases steps with
  | nil => simp [event_loop, h]
  | cons s rest => obtain ⟨evs, ret⟩ := s; simp [event_loop, h]

theorem event_loop_nil_running (st : State) (h : st.running ≠ 0) :
    event_loop w d [] st = (false, st) := by
  simp [event_loop, h]

theorem event_loop_cons_continue (evs : List Event) (ret : Int)
    (rest : List (List Event × Int)) (st : State) (h : st.running ≠ 0) (hr : ret ≠ -1) :
    event_loop w d ((evs, ret) :: rest) st =
      event_loop w d rest (wl_display_dispatch w st d evs ret) := by
  simp [event_loop, h, hr]

theorem event_loop_cons_error (evs : List Event)
    (rest : List (List Event × Int)) (st : State) (h : st.running ≠ 0) :
    event_loop w d ((evs, -1) :: rest) st = (true, wl_display_dispatch w st d evs (-1)) := by
  simp [event_loop, h]

theorem frame_dispatch (st : State) (evs : List Event) (ret : Int) :
    ∃ T, Frame st (wl_display_dispatch w st d evs ret) (.display_dispatch d ret :: T) ∧
      ∀ c ∈ T, HandlerCall st c := by
  obtain ⟨T, hT, hc⟩ := frame_deliver w (call (.display_dispatch d ret) st) evs
  exact ⟨T, (Frame.call (.display_dispatch d ret) st).trans hT, hc⟩

theorem frame_event_loop (steps : List (List Event × Int)) (st : State) :
    ∃ T, Frame st (event_loop w d steps st).2 T ∧ ∀ c ∈ T, LoopCall st c := by
  induction steps generalizing st with
  | nil =>
    refine ⟨[], ?_, by simp⟩
    unfold event_loop
    split_ifs <;> exact Frame.rfl_nil st
  | cons s rest ih =>
    obtain ⟨evs, ret⟩ := s
    by_cases h : st.running = 0
    · rw [event_loop_stopped w d _ st h]
      exact ⟨[], Frame.rfl_nil st, by simp⟩
    · obtain ⟨T, hT, hc⟩ := frame_dispatch w d st evs ret
      have hc1 : ∀ c ∈ Call.display_dispatch d ret :: T, LoopCall st c := by
        intro c hm
        rcases List.mem_cons.1 hm with rfl | hm
        · left; rfl
        · right; exact hc c hm
      by_cases hr : ret = -1
      · subst hr
        rw [event_loop_cons_error w d evs rest st h]
        exact ⟨_, hT, hc1⟩
      · rw [event_loop_cons_continue w d evs ret rest st h hr]
        obtain ⟨U, hU, hcU⟩ := ih (wl_display_dispatch w st d evs ret)
        refine ⟨_, hT.trans hU, ?_⟩
        intro c hm
        rcases List.mem_append.1 hm with hm | hm
        · exact hc1 c hm
        · have := hcU c hm
          simpa [LoopCall, HandlerCall, hT.layer_listener] using this

theorem event_loop_running (steps : List (List Event × Int)) (st : State) :
    (event_loop w d steps st).2.running = st.running ∨
      ((event_loop w d steps st).2.running = 0 ∧
        ∃ s ∈ steps, ∃ e ∈ s.1, e.isStop = true) := by
  induction steps generalizing st with
  | nil => left; unfold event_loop; split_ifs <;> rfl
  | cons s rest ih =>
    obtain ⟨evs, ret⟩ := s
    by_cases h : st.running = 0
    · rw [event_loop_stopped w d _ st h]; left; rfl
    · have hd : (wl_display_dispatch w st d evs ret).running = st.running ∨
          ((wl_display_dispatch w st d evs ret).running = 0 ∧ ∃ e ∈ evs, e.isStop = true) := by
        simpa [wl_display_dispatch] using
          deliver_running w (call (.display_dispatch d ret) st) evs
      by_cases hr : ret = -1
      · subst hr
        rw [event_loop_cons_error w d evs rest st h]
        rcases hd with hd | ⟨hd, e, he, hs⟩
        · left; exact hd
        · right; exact ⟨hd, (evs, -1), by simp, e, he, hs⟩
      · rw [event_loop_cons_continue w d evs ret rest st h hr]
        rcases ih (wl_display_dispatch w st d evs ret) with h1 | ⟨h1, s, hs, e, he, hst⟩
        · rcases hd with hd | ⟨hd, e, he, hs⟩
          · left; rw [h1, hd]
          · right; exact ⟨by rw [h1, hd], (evs, ret), by simp, e, he, hs⟩
        · right; exact ⟨h1, s, by simp [hs], e, he, hst⟩

theorem event_loop_exit (steps : List (List Event × Int)) (st : State)
    (h : (event_loop w d steps st).1 = true) :
    (event_loop w d steps st).2.running = 0 ∨ ∃ s ∈ steps, s.2 = -1 := by
  induction steps generalizing st with
  | nil =>
    by_cases h0 : st.running = 0
    · left; rw [event_loop_stopped w d _ st h0]; exact h0
    · rw [event_loop_nil_running w d st h0] at h; simp at h
  | cons s rest ih =>
    obtain ⟨evs, ret⟩ := s
    by_cases h0 : st.running = 0
    · left; rw [event_loop_stopped w d _ st h0]; exact h0
    · by_cases hr : ret = -1
      · right; exact ⟨(evs, ret), by simp, hr⟩
      · rw [event_loop_cons_continue w d evs ret rest st h0 hr] at h ⊢
        rcases ih _ h with h1 | ⟨s, hs, h1⟩
        · left; exact h1
        · right; exact ⟨s, by simp [hs], h1⟩

theorem event_loop_stop (steps : List (List Event × Int)) (st : State) (surface : Handle)
    (hl : st.layer_listener = some surface) (s : List Event × Int) (hs : s ∈ steps)
    (e : Event) (he : e ∈ s.1) (hst : e.isStop = true) :
    (event_loop w d steps st).1 = true := by
  induction steps generalizing st with
  | nil => simp at hs
  | cons s1 rest ih =>
    obtain ⟨evs, ret⟩ := s1
    by_cases h0 : st.running = 0
    · rw [event_loop_stopped w d _ st h0]
    · by_cases hr : ret = -1
      · subst hr; rw [event_loop_cons_error w d evs rest st h0]
      · rw [event_loop_cons_continue w d evs ret rest st h0 hr]
        have hl1 : (wl_display_dispatch w st d evs ret).layer_listener = some surface := by
          simp [wl_display_dispatch, deliver_layer_listener, hl]
        rcases List.mem_cons.1 hs with rfl | hs
        · have : (wl_display_dispatch w st d evs ret).running = 0 :=
            deliver_stop w _ evs surface (by simpa using hl) e he hst
          rw [event_loop_stopped w d _ _ this]
        · exact ih _ hl1 hs

theorem event_loop_error (pre post : List (List Event × Int)) (evs : List Event)
    (st : State) (h : st.running ≠ 0)
    (hpre : ∀ s ∈ pre, s.2 ≠ -1 ∧ ∀ e ∈ s.1, e.isStop = false) :
    event_loop w d (pre ++ (evs, -1) :: post) st =
      (true, wl_display_dispatch w (event_loop w d pre st).2 d evs (-1)) := by
  induction pre generalizing st with
  | nil => simp [event_loop_cons_error w d evs post st h, event_loop_nil_running w d st h]
  | cons s1 rest ih =>
    obtain ⟨evs1, ret⟩ := s1
    have h1 := hpre (evs1, ret) (by simp)
    have hrun : (wl_display_dispatch w st d evs1 ret).running ≠ 0 := by
      rcases deliver_running w (call (.display_dispatch d ret) st) evs1 with hd | ⟨_, e, he, hs⟩
      · simp only [wl_display_dispatch]; rw [hd]; simpa using h
      · rw [h1.2 e he] at hs; simp at hs
    rw [List.cons_append, event_loop_cons_continue w d evs1 ret _ st h h1.1,
      event_loop_cons_continue w d evs1 ret _ st h h1.1]
    exact ih _ hrun (fun s hs => hpre s (by simp [hs]))

theorem dispatches_append (a b : List Call) :
    dispatches (a ++ b) = dispatches a ++ dispatches b := by
  simp [dispatches]

theorem dispatches_of_not_isDispatch (T : List Call) (hT : ∀ c ∈ T, c.isDispatch = false) :
    dispatches T = [] := by
  induction T with
  | nil => rfl
  | cons c T ih =>
    have hc := hT c (by simp)
    have i1 := ih (fun x hx => hT x (by simp [hx]))
    cases c <;> first
      | exact Bool.noConfusion hc
      | simpa [dispatches, List.filterMap_cons] using i1

theorem dispatch_dispatches (st : State) (evs : List Event) (ret : Int) :
    dispatches (wl_display_dispatch w st d evs ret).trace =
      dispatches st.trace ++ [(d, ret)] := by
  obtain ⟨T, hT, hc⟩ := frame_dispatch w d st evs ret
  have hT0 : dispatches T = [] := by
    apply dispatches_of_not_isDispatch
    intro c hm
    rcases hc c hm with hb | ⟨s, n, -, rfl⟩
    · exact (Call.not_other_of_isBind c hb).2.1
    · rfl
  rw [hT.trace, dispatches_append,
    show Call.display_dispatch d ret :: T = [Call.display_dispatch d ret] ++ T from rfl,
    dispatches_append, hT0, List.append_nil]
  rfl

theorem dispatch_signal_running (st : State) (evs : List Event) (ret : Int) (sig : Signal)
    (hsig : Event.signal sig ∈ evs) : (wl_display_dispatch w st d evs ret).running = 0 :=
  deliver_signal w _ evs sig hsig

theorem event_loop_signal_bound (pre post : List (List Event × Int)) (evs : List Event)
    (ret : Int) (sig : Signal) (hsig : Event.signal sig ∈ evs) (st : State) :
    (dispatches (event_loop w d (pre ++ (evs, ret) :: post) st).2.trace).length ≤
      (dispatches st.trace).length + (pre.length + 1) := by
  induction pre generalizing st with
  | nil =>
    by_cases h : st.running = 0
    · rw [event_loop_stopped w d _ st h]; exact Nat.le_add_right _ _
    · have h1 := dispatch_signal_running w d st evs ret sig hsig
      have h2 := dispatch_dispatches w d st evs ret
      by_cases hr : ret = -1
      · subst hr
        rw [List.nil_append, event_loop_cons_error w d evs post st h, h2]
        simp
      · rw [List.nil_append, event_loop_cons_continue w d evs ret post st h hr,
          event_loop_stopped w d _ _ h1, h2]
        simp
  | cons s1 rest ih =>
    obtain ⟨evs1, r1⟩ := s1
    by_cases h : st.running = 0
    · rw [event_loop_stopped w d _ st h]; exact Nat.le_add_right _ _
    · have h2 := dispatch_dispatches w d st evs1 r1
      by_cases hr : r1 = -1
      · subst hr
        rw [List.cons_append, event_loop_cons_error w d evs1 _ st h, h2]
        simp
      · rw [List.cons_append, event_loop_cons_continue w d evs1 r1 _ st h hr]
        have := ih (wl_display_dispatch w st d evs1 r1)
        rw [h2] at this
        simp only [List.length_append, List.length_cons, List.length_nil] at this ⊢
        omega

theorem event_loop_signal_exact (pre post : List (List Event × Int)) (evs : List Event)
    (ret : Int) (sig : Signal) (hsig : Event.signal sig ∈ evs) (st : State)
    (h : st.running ≠ 0) (hpre : ∀ s ∈ pre, s.2 ≠ -1 ∧ ∀ e ∈ s.1, e.isStop = false) :
    (event_loop w d (pre ++ (evs, ret) :: post) st).1 = true ∧
      (event_loop w d (pre ++ (evs, ret) :: post) st).2.running = 0 ∧
      dispatches (event_loop w d (pre ++ (evs, ret) :: post) st).2.trace =
        dispatches st.trace ++ (pre ++ [(evs, ret)]).map (fun s => (d, s.2)) := by
  induction pre generalizing st with
  | nil =>
    have h1 := dispatch_signal_running w d st evs ret sig hsig
    have h2 := dispatch_dispatches w d st evs ret
    by_cases hr : ret = -1
    · subst hr
      rw [List.nil_append, event_loop_cons_error w d evs post st h]
      exact ⟨rfl, h1, by simpa using h2⟩
    · rw [List.nil_append, event_loop_cons_continue w d evs ret post st h hr,
        event_loop_stopped w d _ _ h1]
      exact ⟨rfl, h1, by simpa using h2⟩
  | cons s1 rest ih =>
    obtain ⟨evs1, r1⟩ := s1
    have hq := hpre (evs1, r1) (by simp)
    have hrun : (wl_display_dispatch w st d evs1 r1).running ≠ 0 := by
      rcases deliver_running w (call (.display_dispatch d r1) st) evs1 with hd | ⟨_, e, he, hs⟩
      · simp only [wl_display_dispatch]; rw [hd]; simpa using h
      · rw [hq.2 e he] at hs; simp at hs
    have h2 := dispatch_dispatches w d st evs1 r1
    rw [List.cons_append, event_loop_cons_continue w d evs1 r1 _ st h hq.1]
    obtain ⟨i1, i2, i3⟩ := ih _ hrun (fun s hs => hpre s (by simp [hs]))
    refine ⟨i1, i2, ?_⟩
    rw [i3, h2]
    simp

end Loop

/-! ## Setup -/

section Setup

variable (width height : Int) (w : World)

theorem memset_fresh (n : Int) (f : Nat → Nat) :
    memset ((List.range n.toNat).map f) 0 n = List.replicate n.toNat 0 := by
  simp [memset]

theorem discovered_frame :
    ∃ T, (discovered w).log = (discover_calls w ++ T).map (fun c => (c, none)) ∧
      (∀ c ∈ T, c.isBind = true) ∧ (discovered w).mem = none ∧
      (discovered w).layer_listener = none ∧ (discovered w).stderr = [] := by
  obtain ⟨T, hT, hc⟩ := frame_deliver w
    (call (.display_roundtrip w.display)
      (call (.registry_add_listener w.registry)
        ((call (.display_get_registry w.display w.registry)
            ((call (.display_connect w.display) (install_handlers State.init)).set_rd
              ⟨0, 0, 0⟩)).set_registry_listener w.registry))) w.roundtrip1
  refine ⟨T, ?_, ?_, ?_, ?_, ?_⟩
  · simp only [discovered, discover, wl_display_roundtrip]
    rw [hT.log]
    simp [install_handlers, State.init, discover_calls]
  · intro c hm
    rcases hc c hm with h | ⟨s, n, h, _⟩
    · exact h
    · simp [install_handlers, State.init] at h
  · simp only [discovered, discover, wl_display_roundtrip]
    rw [hT.mem]; rfl
  · simp only [discovered, discover, wl_display_roundtrip]
    rw [hT.layer_listener]; rfl
  · simp only [discovered, discover, wl_display_roundtrip]
    rw [hT.stderr]; rfl

theorem discovered_running :
    (discovered w).running = 1 ∨
      ((discovered w).running = 0 ∧ ∃ sig, Event.signal sig ∈ w.roundtrip1) := by
  simp only [discovered, discover, wl_display_roundtrip]
  exact deliver_running_signal w _ w.roundtrip1 rfl

theorem setup_ok (h : SetupSucceeds w) :
    setup width height w =
      .ok (wl_display_roundtrip w (committed width height w) w.display w.roundtrip2) := by
  obtain ⟨h1, h2, h3, h4, h5, h6, h7, h8, h9⟩ := h
  simp only [bound, discovered] at h2 h3 h4
  have h7 : ¬ w.memfd < 0 := not_lt.2 h7
  have h8 : ¬ w.ftruncate < 0 := not_lt.2 h8
  unfold setup
  simp only [h1, h2, h3, h4, h5, h6, h7, h8, h9, if_false, or_self]
  obtain ⟨T, _, _, hm, _, _⟩ := discovered_frame w
  simp only [discovered] at hm
  simp only [wl_display_roundtrip]
  refine congrArg Except.ok (congrArg (deliver w w.roundtrip2) (congrArg (call _) ?_))
  apply State.ext
  all_goals simp only [call_log, call_mem, call_running, call_rd, call_registry_listener,
    call_layer_listener, call_binds, call_stderr, set_mem_log, set_mem_mem, set_mem_running,
    set_mem_rd, set_mem_registry_listener, set_mem_layer_listener, set_mem_binds,
    set_mem_stderr, configure_role, set_layer_listener_log, set_layer_listener_mem,
    set_layer_listener_running, set_layer_listener_rd, set_layer_listener_registry_listener,
    set_layer_listener_layer_listener, set_layer_listener_binds, set_layer_listener_stderr,
    committed]
  all_goals simp [setup_log, discovered, bound, zeros, memset_fresh, hm]

theorem discovered_trace : ∃ T, (discovered w).trace = discover_calls w ++ T ∧
    ∀ c ∈ T, c.isBind = true := by
  obtain ⟨T, hlog, hT, -⟩ := discovered_frame w
  exact ⟨T, by simp [State.trace, hlog, Function.comp_def], hT⟩

theorem discovered_not_attach (c : Call) (hc : c ∈ (discovered w).trace) :
    c.isAttachOrCommit = false ∧ c.isRelease = false := by
  obtain ⟨T, ht, hT⟩ := discovered_trace w
  rw [ht] at hc
  rcases List.mem_append.1 hc with hc | hc
  · simp only [discover_calls, List.mem_cons, List.mem_singleton, List.not_mem_nil,
      or_false] at hc
    rcases hc with rfl | rfl | rfl | rfl | rfl | rfl <;> exact ⟨rfl, rfl⟩
  · have := Call.not_other_of_isBind c (hT c hc)
    exact ⟨this.2.2.1, this.1⟩

theorem setup_error (h : ¬ SetupSucceeds w) :
    ∃ st, setup width height w = .error st ∧
      (∀ c ∈ st.trace, c.isAttachOrCommit = false) ∧
      (st.running = 1 ∨ (st.running = 0 ∧ ∃ sig, Event.signal sig ∈ w.roundtrip1)) := by
  have hna := discovered_not_attach w
  have hrun := discovered_running w
  simp only [discovered] at hna hrun
  unfold setup
  simp only
  split_ifs with h1 h2 h3 h4 h5 h6 h7
  · exact ⟨_, rfl, by simp [install_handlers, State.init, State.trace, Call.isAttachOrCommit],
      Or.inl rfl⟩
  all_goals first
    | refine ⟨_, rfl, ?_, by simpa [configure_role] using hrun⟩
      intro c hc
      simp only [call_trace, fprintf_trace, configure_role, set_layer_listener_trace,
        List.mem_append, List.mem_singleton] at hc
      rcases hc with hc | rfl
      · repeat (first
          | exact (hna c hc).1
          | rcases hc with hc | rfl)
        all_goals first | exact (hna c hc).1 | rfl
      · rfl
    | exfalso
      apply h
      refine ⟨h1, ?_, ?_, ?_, h3, h4, not_lt.1 h5, not_lt.1 h6, h7⟩
      · exact fun hh => h2 (Or.inl hh)
      · exact fun hh => h2 (Or.inr (Or.inl hh))
      · exact fun hh => h2 (Or.inr (Or.inr hh))

theorem main_sized_ok (h : SetupSucceeds w) :
    main_sized width height w =
      if (looped width height w).1 = true then cleanup width height w (looped width height w).2
      else ⟨none, pending_dispatch w (looped width height w).2⟩ := by
  unfold main_sized
  rw [setup_ok width height w h]
  simp only [looped, entered]
  rcases event_loop w w.display w.loop
    (wl_display_roundtrip w (committed width height w) w.display w.roundtrip2) with ⟨b, st⟩
  cases b <;> simp

theorem cleanup_log (st : State) :
    (cleanup width height w st).st.log =
      st.log ++ (teardown_calls width height w).map (fun c => (c, none)) := by
  simp [cleanup, teardown_calls]

theorem cleanup_status (st : State) : (cleanup width height w st).status = some 0 := rfl

theorem cleanup_running (st : State) : (cleanup width height w st).st.running = st.running := by
  simp [cleanup]

theorem isListening_of_handlerCall (st : State) (c : Call) (h : HandlerCall st c) :
    c.isListening = true := by
  rcases h with h | ⟨s, n, _, rfl⟩
  · exact (Call.not_other_of_isBind c h).2.2.2.2
  · rfl

theorem isListening_of_loopCall (st : State) (c : Call) (h : LoopCall st c) :
    c.isListening = true := by
  rcases h with h | h
  · exact Call.isListening_of_isDispatch c h
  · exact isListening_of_handlerCall st c h

theorem entered_frame :
    ∃ T, Frame (committed width height w) (entered width height w)
        (.display_roundtrip w.display :: T) ∧
      ∀ c ∈ T, HandlerCall (committed width height w) c := by
  obtain ⟨T, hT, hc⟩ := frame_deliver w
    (call (.display_roundtrip w.display) (committed width height w)) w.roundtrip2
  exact ⟨T, (Frame.call _ _).trans hT, hc⟩

theorem entered_layer_listener :
    (entered width height w).layer_listener = some w.layer_surface := by
  obtain ⟨T, hT, _⟩ := entered_frame width height w
  rw [hT.layer_listener]; rfl

theorem looped_log :
    ∃ T1 TE : List Call, (looped width height w).2.log =
        (discover_calls w ++ T1).map (fun c => (c, none)) ++ setup_log width height w ++
          TE.map (fun c => (c, some (zeros width height))) ∧
      (∀ c ∈ T1, c.isBind = true) ∧ (∀ c ∈ TE, c.isListening = true) ∧
      (looped width height w).2.mem = some (zeros width height) := by
  obtain ⟨T1, h1, hb, -⟩ := discovered_frame w
  obtain ⟨T2, h2, hc2⟩ := entered_frame width height w
  obtain ⟨TL, h3, hc3⟩ := frame_event_loop w w.display w.loop (entered width height w)
  have hmem : (entered width height w).mem = some (zeros width height) := by
    rw [h2.mem]; rfl
  refine ⟨T1, (.display_roundtrip w.display :: T2) ++ TL, ?_, hb, ?_, ?_⟩
  · simp only [looped]
    rw [h3.log, h2.log, hmem]
    simp [committed, h1]
  · intro c hc
    rcases List.mem_append.1 hc with hc | hc
    · rcases List.mem_cons.1 hc with rfl | hc
      · rfl
      · exact isListening_of_handlerCall _ c (hc2 c hc)
    · exact isListening_of_loopCall _ c (hc3 c hc)
  · simp only [looped]
    rw [h3.mem, hmem]

theorem setup_log_not_release (x : Call × Option (List Nat))
    (hx : x ∈ setup_log width height w) : x.1.isRelease = false := by
  simp only [setup_log, List.mem_cons, List.mem_singleton, List.not_mem_nil, or_false] at hx
  rcases hx with rfl | rfl | rfl | rfl | rfl | rfl | rfl | rfl | rfl | rfl | rfl | rfl | rfl |
    rfl | rfl | rfl | rfl <;> rfl

theorem looped_not_release (c : Call) (hc : c ∈ (looped width height w).2.trace) :
    c.isRelease = false := by
  obtain ⟨T1, TE, hlog, h1, hE, -⟩ := looped_log width height w
  simp only [State.trace, hlog, List.map_append, List.map_map, List.mem_append, List.mem_map,
    Function.comp_def] at hc
  rcases hc with ((⟨a, ha, rfl⟩ | ⟨a, ha, rfl⟩) | ⟨x, hx, rfl⟩) | ⟨a, ha, rfl⟩
  · simp only [discover_calls, List.mem_cons, List.mem_singleton, List.not_mem_nil,
      or_false] at ha
    rcases ha with rfl | rfl | rfl | rfl | rfl | rfl <;> rfl
  · exact (Call.not_other_of_isBind a (h1 a ha)).1
  · exact setup_log_not_release width height w x hx
  · exact (Call.not_other_of_isListening a (hE a ha)).1

theorem main_sized_exit (h : SetupSucceeds w) (hx : (looped width height w).1 = true) :
    (main_sized width height w).status = some 0 ∧
      (main_sized width height w).st.running = (looped width height w).2.running ∧
      (main_sized width height w).st.trace =
        (looped width height w).2.trace ++ teardown_calls width height w := by
  rw [main_sized_ok width height w h, if_pos hx]
  refine ⟨rfl, cleanup_running width height w _, ?_⟩
  simp [State.trace, cleanup_log, Function.comp_def]

theorem pending_dispatch_log (st : State) : (pending_dispatch w st).log = st.log := by
  unfold pending_dispatch
  induction w.last generalizing st with
  | nil => rfl
  | cons sig sigs ih => rw [List.foldl_cons, ih]; rfl

theorem pending_dispatch_trace (st : State) : (pending_dispatch w st).trace = st.trace := by
  simp [State.trace, pending_dispatch_log]

theorem pending_dispatch_running (st : State) :
    ((pending_dispatch w st).running = st.running ∧ w.last = []) ∨
      ((pending_dispatch w st).running = 0 ∧ w.last ≠ []) := by
  unfold pending_dispatch
  cases hl : w.last with
  | nil => left; exact ⟨rfl, rfl⟩
  | cons sig sigs =>
    right
    refine ⟨?_, by simp⟩
    rw [List.foldl_cons]
    have : ∀ (l : List Signal) (s : State), s.running = 0 →
        (l.foldl handle_signal s).running = 0 := by
      intro l
      induction l with
      | nil => intro s hs; exact hs
      | cons a l ih => intro s _; rw [List.foldl_cons]; exact ih _ rfl
    exact this sigs _ rfl

theorem main_sized_blocked (h : SetupSucceeds w) (hx : (looped width height w).1 = false) :
    (main_sized width height w).status = none ∧
      (main_sized width height w).st = pending_dispatch w (looped width height w).2 := by
  rw [main_sized_ok width height w h, hx]
  exact ⟨rfl, rfl⟩

theorem teardown_calls_main :
    teardown_calls 1 1 w = [.munmap w.mmap 4, .buffer_destroy w.buffer,
      .layer_surface_destroy w.layer_surface, .surface_destroy w.surface,
      .display_disconnect w.display] := by
  simp [teardown_calls, wrap32]

theorem committed_running : (committed width height w).running = (discovered w).running := rfl

theorem entered_running :
    (entered width height w).running = 1 ∨
      ((entered width height w).running = 0 ∧
        ∃ e : Event, e.isStop = true ∧ (e ∈ w.roundtrip1 ∨ e ∈ w.roundtrip2)) := by
  rcases deliver_running w (call (.display_roundtrip w.display) (committed width height w))
    w.roundtrip2 with h | ⟨h, e, he, hs⟩
  · simp only [call_running, committed_running] at h
    rcases discovered_running w with h1 | ⟨h1, sig, hsig⟩
    · left; simp only [entered, wl_display_roundtrip]; rw [h, h1]
    · right; exact ⟨by simp only [entered, wl_display_roundtrip]; rw [h, h1],
        .signal sig, rfl, Or.inl hsig⟩
  · right; exact ⟨h, e, hs, Or.inr he⟩

theorem looped_running :
    (looped width height w).2.running = 1 ∨
      ((looped width height w).2.running = 0 ∧ w.delivers_stop) := by
  rcases event_loop_running w w.display w.loop (entered width height w) with
    h | ⟨h, s, hs, e, he, hst⟩
  · rcases entered_running width height w with h1 | ⟨h1, e, hst, he⟩
    · left; simp only [looped]; rw [h, h1]
    · right
      refine ⟨by simp only [looped]; rw [h, h1], e, hst, ?_⟩
      rcases he with he | he
      · exact Or.inl he
      · exact Or.inr (Or.inl he)
  · right; exact ⟨h, e, hst, Or.inr (Or.inr ⟨s, hs, he⟩)⟩

theorem main_sized_running :
    (main_sized width height w).st.running = 1 ∨
      ((main_sized width height w).st.running = 0 ∧ (w.delivers_stop ∨ w.last ≠ [])) := by
  by_cases h : SetupSucceeds w
  · have hr := looped_running width height w
    cases hx : (looped width height w).1 with
    | true =>
      rw [(main_sized_exit width height w h hx).2.1]
      exact hr.imp id (fun h0 => ⟨h0.1, Or.inl h0.2⟩)
    | false =>
      rw [(main_sized_blocked width height w h hx).2]
      rcases pending_dispatch_running w (looped width height w).2 with ⟨h1, -⟩ | ⟨h1, h2⟩
      · rw [h1]; exact hr.imp id (fun h0 => ⟨h0.1, Or.inl h0.2⟩)
      · exact Or.inr ⟨h1, Or.inr h2⟩
  · obtain ⟨st, hst, -, hrun⟩ := setup_error width height w h
    simp only [main_sized, hst]
    rcases hrun with h1 | ⟨h1, sig, hsig⟩
    · exact Or.inl h1
    · exact Or.inr ⟨h1, Or.inl ⟨.signal sig, rfl, Or.inl hsig⟩⟩

theorem main_sized_status_zero (h0 : (main_sized width height w).status = some 0) :
    SetupSucceeds w ∧ ((∃ s ∈ w.loop, s.2 = -1) ∨ w.delivers_stop) := by
  by_cases h : SetupSucceeds w
  · refine ⟨h, ?_⟩
    cases hx : (looped width height w).1 with
    | false => rw [(main_sized_blocked width height w h hx).1] at h0; simp at h0
    | true =>
      rcases event_loop_exit w w.display w.loop (entered width height w) hx with h1 | h1
      · rcases looped_running width height w with h2 | ⟨-, h2⟩
        · simp only [looped] at h2; rw [h1] at h2; simp at h2
        · exact Or.inr h2
      · exact Or.inl h1
  · obtain ⟨st, hst, -, -⟩ := setup_error width height w h
    simp [main_sized, hst] at h0

theorem entered_not_dispatch (c : Call) (hc : c ∈ (entered width height w).trace) :
    c.isDispatch = false := by
  obtain ⟨T1, h1, hb, -⟩ := discovered_frame w
  obtain ⟨T2, h2, hc2⟩ := entered_frame width height w
  rw [h2.trace] at hc
  simp only [State.trace, committed, h1, List.map_append, List.map_map, List.mem_append,
    List.mem_map, List.mem_cons, Function.comp_def] at hc
  rcases hc with ((⟨a, ha, rfl⟩ | ⟨a, ha, rfl⟩) | ⟨x, hx, rfl⟩) | rfl | ha
  · simp only [discover_calls, List.mem_cons, List.mem_singleton, List.not_mem_nil,
      or_false] at ha
    rcases ha with rfl | rfl | rfl | rfl | rfl | rfl <;> rfl
  · exact (Call.not_other_of_isBind a (hb a ha)).2.1
  · simp only [setup_log, List.mem_cons, List.mem_singleton, List.not_mem_nil,
      or_false] at hx
    rcases hx with rfl | rfl | rfl | rfl | rfl | rfl | rfl | rfl | rfl | rfl | rfl | rfl |
      rfl | rfl | rfl | rfl | rfl <;> rfl
  · rfl
  · rcases hc2 c ha with h | ⟨s, n, _, rfl⟩
    · exact (Call.not_other_of_isBind c h).2.1
    · rfl

theorem filterMap_of_isBind (T : List Call) (hT : ∀ c ∈ T, c.isBind = true) :
    T.filterMap Call.creates = [] ∧ T.filterMap Call.releases = [] := by
  induction T with
  | nil => exact ⟨rfl, rfl⟩
  | cons c T ih =>
    have hc := hT c (by simp)
    obtain ⟨i1, i2⟩ := ih (fun x hx => hT x (by simp [hx]))
    cases c <;> first
      | exact Bool.noConfusion hc
      | exact ⟨by simpa [List.filterMap_cons, Call.creates] using i1,
          by simpa [List.filterMap_cons, Call.releases] using i2⟩

theorem discovered_resources (hd : w.display ≠ 0) :
    (discovered w).trace.filterMap Call.creates = [.connection w.display] ∧
      (discovered w).trace.filterMap Call.releases = [] := by
  obtain ⟨T, ht, hT⟩ := discovered_trace w
  obtain ⟨i1, i2⟩ := filterMap_of_isBind T hT
  rw [ht]
  simp [List.filterMap_append, i1, i2, discover_calls, List.filterMap_cons, Call.creates,
    Call.releases, hd]

theorem wrap32_of_int_range (x : Int) (h1 : -2147483648 ≤ x) (h2 : x < 2147483648) :
    wrap32 x = x := by
  unfold wrap32
  omega

theorem stride_size_supported (hw : 0 < width) (hh : 0 < height)
    (hsz : width * height * 4 < 2147483648) :
    wrap32 (width * 4) = width * 4 ∧ wrap32 (wrap32 (width * 4) * height) = width * height * 4 := by
  have h1 : width * 4 ≤ width * height * 4 := by nlinarith
  have h2 : wrap32 (width * 4) = width * 4 := wrap32_of_int_range _ (by omega) (by omega)
  refine ⟨h2, ?_⟩
  rw [h2, show width * 4 * height = width * height * 4 by ring]
  exact wrap32_of_int_range _ (by nlinarith) hsz

theorem main_sized_log (h : SetupSucceeds w) :
    ∃ (T1 TE : List Call) (C : List (Call × Option (List Nat))),
      (main_sized width height w).st.log =
        (discover_calls w ++ T1).map (fun c => (c, none)) ++ setup_log width height w ++
          TE.map (fun c => (c, some (zeros width height))) ++ C ∧
      (∀ c ∈ T1, c.isBind = true) ∧ (∀ c ∈ TE, c.isListening = true) ∧
      (C = [] ∨ C = (teardown_calls width height w).map (fun c => (c, none))) ∧
      ((main_sized width height w).status = none ∨
        (main_sized width height w).status = some 0) := by
  obtain ⟨T1, TE, hlog, h1, hE, -⟩ := looped_log width height w
  cases hx : (looped width height w).1 with
  | true =>
    refine ⟨T1, TE, (teardown_calls width height w).map (fun c => (c, none)), ?_, h1, hE,
      Or.inr rfl, Or.inr (main_sized_exit width height w h hx).1⟩
    rw [main_sized_ok width height w h, if_pos hx, cleanup_log, hlog]
  | false =>
    refine ⟨T1, TE, [], ?_, h1, hE, Or.inl rfl,
      Or.inl (main_sized_blocked width height w h hx).1⟩
    rw [(main_sized_blocked width height w h hx).2, pending_dispatch_log, hlog,
      List.append_nil]

theorem acks_append (a b : List Call) : acks (a ++ b) = acks a ++ acks b := by
  simp [acks]

theorem acks_of_isBind (T : List Call) (hT : ∀ c ∈ T, c.isBind = true) : acks T = [] := by
  induction T with
  | nil => rfl
  | cons c T ih =>
    have hc := hT c (by simp)
    have i1 := ih (fun x hx => hT x (by simp [hx]))
    cases c <;> first
      | exact Bool.noConfusion hc
      | simpa [acks, List.filterMap_cons] using i1

theorem configure_serials_append (a b : List Event) :
    configure_serials (a ++ b) = configure_serials a ++ configure_serials b := by
  simp [configure_serials]

theorem entered_acks :
    acks (entered width height w).trace =
      (configure_serials w.roundtrip2).map (fun n => (w.layer_surface, n)) := by
  obtain ⟨T1, ht, hT⟩ := discovered_trace w
  have hc : acks (committed width height w).trace = [] := by
    have : (committed width height w).trace =
        (discovered w).trace ++ (setup_log width height w).map Prod.fst := by
      simp [State.trace, committed]
    rw [this, ht, acks_append, acks_append, acks_of_isBind T1 hT]
    simp [acks, discover_calls, setup_log, List.filterMap_cons]
  simp only [entered, wl_display_roundtrip]
  rw [deliver_acks, call_trace, acks_append, hc]
  simp [acks, committed]

theorem event_loop_acks (steps : List (List Event × Int)) (st : State) (surface : Handle)
    (hl : st.layer_listener = some surface) :
    ∃ k, acks (event_loop w w.display steps st).2.trace = acks st.trace ++
      (configure_serials ((steps.take k).flatMap Prod.fst)).map (fun n => (surface, n)) := by
  induction steps generalizing st with
  | nil =>
    refine ⟨0, ?_⟩
    unfold event_loop
    split_ifs <;> simp [configure_serials]
  | cons s rest ih =>
    obtain ⟨evs, ret⟩ := s
    by_cases h : st.running = 0
    · rw [event_loop_stopped w w.display _ st h]
      exact ⟨0, by simp [configure_serials]⟩
    · have hd : acks (wl_display_dispatch w st w.display evs ret).trace = acks st.trace ++
          (configure_serials evs).map (fun n => (surface, n)) := by
        simp only [wl_display_dispatch]
        rw [deliver_acks, call_trace, acks_append, call_layer_listener, hl]
        simp [acks]
      have hl1 : (wl_display_dispatch w st w.display evs ret).layer_listener = some surface := by
        simp [wl_display_dispatch, deliver_layer_listener, hl]
      by_cases hr : ret = -1
      · subst hr
        rw [event_loop_cons_error w w.display evs rest st h]
        exact ⟨1, by simp [hd]⟩
      · rw [event_loop_cons_continue w w.display evs ret rest st h hr]
        obtain ⟨k, hk⟩ := ih _ hl1
        refine ⟨k + 1, ?_⟩
        rw [hk, hd]
        simp [configure_serials_append]

theorem main_sized_acks (h : SetupSucceeds w) :
    ∃ k, acks (main_sized width height w).st.trace =
      (configure_serials (w.delivered k)).map (fun n => (w.layer_surface, n)) := by
  obtain ⟨k, hk⟩ := event_loop_acks w w.loop (entered width height w) w.layer_surface
    (entered_layer_listener width height w)
  have hk1 : acks (looped width height w).2.trace =
      (configure_serials (w.delivered k)).map (fun n => (w.layer_surface, n)) := by
    simp only [looped]
    rw [hk, entered_acks, World.delivered, configure_serials_append, List.map_append]
  refine ⟨k, ?_⟩
  cases hx : (looped width height w).1 with
  | true =>
    rw [(main_sized_exit width height w h hx).2.2, acks_append, hk1]
    simp [acks, teardown_calls, List.filterMap_cons]
  | false => rw [(main_sized_blocked width height w h hx).2, pending_dispatch_trace, hk1]

end Setup

/-! ## The claims -/

/-- C1: in a run that connects and in which, after the round-trip of line 116, one of the
three capability slots is still null, `main` returns 1; the calls it makes are the six
calls up to that round-trip, the binds sent by the registry listener during the
round-trip, and then the disconnect alone; no call creates a surface, a layer surface,
a memory file, a pool or a buffer, and none attaches or commits. -/
theorem main_missing_capability (w : World) (hd : w.display ≠ 0)
    (h : (bound w).compositor = 0 ∨ (bound w).layer_shell = 0 ∨ (bound w).shm = 0) :
    (main w).status = some 1 ∧
      (∃ T, (main w).st.trace = discover_calls w ++ T ++ [.display_disconnect w.display] ∧
        ∀ c ∈ T, c.isBind = true) ∧
      ∀ c ∈ (main w).st.trace, c.isSurfaceOrBuffer = false := by
  obtain ⟨T, hlog, hT, -⟩ := discovered_frame w
  have h1 : (discover w (call (.display_connect w.display) (install_handlers State.init))
      w.display).rd.compositor = 0 ∨ (discover w (call (.display_connect w.display)
      (install_handlers State.init)) w.display).rd.layer_shell = 0 ∨
      (discover w (call (.display_connect w.display) (install_handlers State.init))
      w.display).rd.shm = 0 := h
  have htr : (main w).st.trace = discover_calls w ++ T ++ [.display_disconnect w.display] := by
    have : (discovered w).trace = discover_calls w ++ T := by
      simp [State.trace, hlog, Function.comp_def]
    simp only [main, main_sized, setup, hd, h1, if_true, if_false, call_trace, fprintf_trace]
    rw [← this]; rfl
  refine ⟨?_, ⟨T, htr, hT⟩, ?_⟩
  · simp only [main, main_sized, setup, hd, h1, if_true, if_false]
  · rw [htr]
    intro c hc
    simp only [List.mem_append, List.mem_singleton] at hc
    rcases hc with (hc | hc) | rfl
    · simp only [discover_calls, List.mem_cons, List.mem_singleton, List.not_mem_nil,
        or_false] at hc
      rcases hc with rfl | rfl | rfl | rfl | rfl | rfl <;> rfl
    · exact (Call.not_other_of_isBind c (hT c hc)).2.2.2.1
    · rfl

/-- C1, on a server without layer shell. -/
theorem main_missing_capability_witness :
    world_without_layer_shell.display ≠ 0 ∧ (bound world_without_layer_shell).layer_shell = 0 ∧
      (main world_without_layer_shell).status = some 1 ∧
      ∀ c ∈ (main world_without_layer_shell).st.trace, c.isSurfaceOrBuffer = false :=
  ⟨by decide, by decide,
    (main_missing_capability world_without_layer_shell (by decide) (by decide)).1,
    (main_missing_capability world_without_layer_shell (by decide) (by decide)).2.2⟩

/-- C9: `registry_global` called with one of the three known interface names sends one
bind request for the advertised name, at version 4 for `wl_compositor` and
`zwlr_layer_shell_v1` and at version 1 for `wl_shm`, whatever version was advertised,
stores the proxy returned in the matching slot and leaves the two other slots as they
were; it sends a bind request exactly when the name is one of the three, and with any
other name it returns the state unchanged; `registry_global_remove` returns the state
unchanged. -/
theorem registry_global_binds_known_names (w : World) (st : State)
    (registry name version : Nat) (interface : String) :
    ((registry_global w st registry name wl_compositor_interface_name version).trace =
        st.trace ++ [.registry_bind registry name "wl_compositor" 4 (w.bind st.binds)] ∧
      (registry_global w st registry name wl_compositor_interface_name version).rd =
        { st.rd with compositor := w.bind st.binds }) ∧
    ((registry_global w st registry name zwlr_layer_shell_v1_interface_name version).trace =
        st.trace ++ [.registry_bind registry name "zwlr_layer_shell_v1" 4 (w.bind st.binds)] ∧
      (registry_global w st registry name zwlr_layer_shell_v1_interface_name version).rd =
        { st.rd with layer_shell := w.bind st.binds }) ∧
    ((registry_global w st registry name wl_shm_interface_name version).trace =
        st.trace ++ [.registry_bind registry name "wl_shm" 1 (w.bind st.binds)] ∧
      (registry_global w st registry name wl_shm_interface_name version).rd =
        { st.rd with shm := w.bind st.binds }) ∧
    ((∃ c, c.isBind = true ∧
        (registry_global w st registry name interface version).trace = st.trace ++ [c]) ↔
      (interface = "wl_compositor" ∨ interface = "zwlr_layer_shell_v1" ∨
        interface = "wl_shm")) ∧
    ((interface = "wl_compositor" ∨ interface = "zwlr_layer_shell_v1" ∨
        interface = "wl_shm") ∨
      registry_global w st registry name interface version = st) ∧
    registry_global_remove st registry name = st := by
  refine ⟨⟨?_, ?_⟩, ⟨?_, ?_⟩, ⟨?_, ?_⟩, ?_, ?_, rfl⟩
  · simp [registry_global, wl_registry_bind, State.trace, wl_compositor_interface_name]
  · simp [registry_global, wl_registry_bind]
  · simp [registry_global, wl_registry_bind, State.trace, wl_compositor_interface_name,
      zwlr_layer_shell_v1_interface_name]
  · simp [registry_global, wl_registry_bind, wl_compositor_interface_name,
      zwlr_layer_shell_v1_interface_name]
  · simp [registry_global, wl_registry_bind, State.trace, wl_compositor_interface_name,
      zwlr_layer_shell_v1_interface_name, wl_shm_interface_name]
  · simp [registry_global, wl_registry_bind, wl_compositor_interface_name,
      zwlr_layer_shell_v1_interface_name, wl_shm_interface_name]
  · by_cases h1 : interface = "wl_compositor"
    · simp [h1, registry_global, wl_registry_bind, State.trace, wl_compositor_interface_name,
        Call.isBind]
    · by_cases h2 : interface = "zwlr_layer_shell_v1"
      · simp [h2, registry_global, wl_registry_bind, State.trace,
          wl_compositor_interface_name, zwlr_layer_shell_v1_interface_name, Call.isBind]
      · by_cases h3 : interface = "wl_shm"
        · simp [h3, registry_global, wl_registry_bind, State.trace,
            wl_compositor_interface_name, zwlr_layer_shell_v1_interface_name,
            wl_shm_interface_name, Call.isBind]
        · simp [h1, h2, h3, registry_global, wl_compositor_interface_name,
            zwlr_layer_shell_v1_interface_name, wl_shm_interface_name]
  · by_cases h1 : interface = "wl_compositor"
    · exact Or.inl (Or.inl h1)
    · by_cases h2 : interface = "zwlr_layer_shell_v1"
      · exact Or.inl (Or.inr (Or.inl h2))
      · by_cases h3 : interface = "wl_shm"
        · exact Or.inl (Or.inr (Or.inr h3))
        · right
          simp [h1, h2, h3, registry_global, wl_compositor_interface_name,
            zwlr_layer_shell_v1_interface_name, wl_shm_interface_name]

/-- C2: while the layer-surface listener is installed on `surface`, delivering any batch
of events adds to the acknowledgments sent so far exactly one `ack_configure` on
`surface` per configure event of the batch, with the serial of that event and in the
order of the events; events of other kinds add none, and without the listener none is
sent.  The callback sends that one request whatever width and height are proposed.
In a whole run whose setup succeeds, the acknowledgments sent are the serials of the
configure events of the second round-trip and of the dispatch calls made, in order. -/
theorem ack_configure_per_configure (w : World) (st : State) (evs : List Event) :
    acks (deliver w evs st).trace = acks st.trace ++
      (match st.layer_listener with
        | some surface => (configure_serials evs).map (fun serial => (surface, serial))
        | none => []) ∧
    (∀ surface serial width height : Nat,
      layer_surface_configure st surface serial width height =
        call (.ack_configure surface serial) st ∧
      (layer_surface_configure st surface serial width height).trace =
        st.trace ++ [.ack_configure surface serial]) ∧
    (SetupSucceeds w → ∃ k, acks (main w).st.trace =
      (configure_serials (w.delivered k)).map (fun serial => (w.layer_surface, serial))) :=
  ⟨deliver_acks w st evs, fun _ _ _ _ => ⟨rfl, by simp [layer_surface_configure]⟩,
    fun h => main_sized_acks 1 1 w h⟩

/-- C2, on the sample server: serial 7 arrives in the second round-trip and serial 8 in the
first dispatch, and these two are acknowledged, in this order. -/
theorem ack_configure_per_configure_witness :
    SetupSucceeds sample_world ∧
      acks (main sample_world).st.trace = [(11, 7), (11, 8)] ∧
      acks (deliver sample_world [.configure 8 1920 1080, .closed, .configure 9 0 0]
        (entered 1 1 sample_world)).trace = [(11, 7), (11, 8), (11, 9)] ∧
      ∃ k, acks (main sample_world).st.trace =
        (configure_serials (sample_world.delivered k)).map (fun serial => (11, serial)) :=
  ⟨by decide, by decide, by decide,
    (ack_configure_per_configure sample_world State.init []).2.2 (by decide)⟩

/-- C3 as stated fails: on a server whose setup succeeds, whose first dispatch returns and
whose second dispatch never returns, SIGTERM arrives during that second dispatch, so
while the loop is running; the handler sets `running` to 0, and the program stays in
the call: no release is made and `main` does not return. -/
theorem signal_during_pending_dispatch :
    SetupSucceeds world_signal_while_blocked ∧
      dispatches (main world_signal_while_blocked).st.trace = [(1, 1)] ∧
      Signal.SIGTERM ∈ world_signal_while_blocked.last ∧
      (main world_signal_while_blocked).st.running = 0 ∧
      (main world_signal_while_blocked).status = none ∧
      ¬ ((main world_signal_while_blocked).status = some 0) ∧
      ∀ c ∈ (main world_signal_while_blocked).st.trace, c.isRelease = false := by
  decide

/-- C3, amended: in a run whose setup succeeds and in which SIGINT or SIGTERM arrives
during a call of `wl_display_dispatch` that returns, `main` returns 0 and its trace ends
with the five releases `munmap`, `wl_buffer_destroy`, `zwlr_layer_surface_v1_destroy`,
`wl_surface_destroy`, `wl_display_disconnect`, in this order; none of these five kinds
of call occurs before, so each release happens once and nothing follows the
disconnect; and no dispatch is called after the one during which the signal arrived.
When the loop is still running at that dispatch (no signal, `closed` or dispatch error
before), the dispatch calls made are exactly the ones up to and including it, and
`running` is 0 at the end. -/
theorem signal_teardown_once_in_order (w : World) (h : SetupSucceeds w)
    (pre post : List (List Event × Int)) (evs : List Event) (ret : Int)
    (hloop : w.loop = pre ++ (evs, ret) :: post) (sig : Signal)
    (hsig : Event.signal sig ∈ evs) :
    (main w).status = some 0 ∧
      (∃ p, (main w).st.trace = p ++ [.munmap w.mmap 4, .buffer_destroy w.buffer,
          .layer_surface_destroy w.layer_surface, .surface_destroy w.surface,
          .display_disconnect w.display] ∧
        ∀ c ∈ p, c.isRelease = false) ∧
      (dispatches (main w).st.trace).length ≤ pre.length + 1 ∧
      ((∀ e ∈ w.roundtrip1, e.isStop = false) → (∀ e ∈ w.roundtrip2, e.isStop = false) →
        (∀ s ∈ pre, s.2 ≠ -1 ∧ ∀ e ∈ s.1, e.isStop = false) →
        (main w).st.running = 0 ∧
          dispatches (main w).st.trace =
            (pre ++ [(evs, ret)]).map (fun s => (w.display, s.2))) := by
  have hx : (looped 1 1 w).1 = true :=
    event_loop_stop w w.display w.loop _ w.layer_surface (entered_layer_listener 1 1 w)
      (evs, ret) (by rw [hloop]; simp) (.signal sig) hsig rfl
  obtain ⟨h1, h2, h3⟩ := main_sized_exit 1 1 w h hx
  have hent : dispatches (entered 1 1 w).trace = [] :=
    dispatches_of_not_isDispatch _ (entered_not_dispatch 1 1 w)
  have htd : dispatches (main w).st.trace = dispatches (looped 1 1 w).2.trace := by
    show dispatches (main_sized 1 1 w).st.trace = _
    rw [h3, dispatches_append]
    simp [dispatches, teardown_calls, List.filterMap_cons]
  refine ⟨h1, ⟨(looped 1 1 w).2.trace, ?_, looped_not_release 1 1 w⟩, ?_, ?_⟩
  · rw [← teardown_calls_main]
    exact h3
  · rw [htd]
    have := event_loop_signal_bound w w.display pre post evs ret sig hsig (entered 1 1 w)
    rw [hent] at this
    simpa [looped, hloop] using this
  · intro q1 q2 hpre
    have hrun : (entered 1 1 w).running ≠ 0 := by
      rcases entered_running 1 1 w with he | ⟨-, e, hs, he | he⟩
      · rw [he]; decide
      · rw [q1 e he] at hs; simp at hs
      · rw [q2 e he] at hs; simp at hs
    obtain ⟨-, i2, i3⟩ := event_loop_signal_exact w w.display pre post evs ret sig hsig
      (entered 1 1 w) hrun hpre
    rw [hent, List.nil_append] at i3
    refine ⟨?_, ?_⟩
    · show (main_sized 1 1 w).st.running = 0
      rw [h2]
      simpa [looped, hloop] using i2
    · rw [htd]
      simpa [looped, hloop] using i3

/-- C3 amended, on the sample server, where SIGTERM arrives during the second dispatch,
which returns 0: two dispatch calls, then the five releases. -/
theorem signal_teardown_once_in_order_witness :
    SetupSucceeds sample_world ∧
      sample_world.loop = [([.configure 8 1920 1080], 1)] ++ ([.signal .SIGTERM], 0) :: [] ∧
      (main sample_world).status = some 0 ∧
      (main sample_world).st.running = 0 ∧
      dispatches (main sample_world).st.trace = [(1, 1), (1, 0)] ∧
      ∃ p, (main sample_world).st.trace = p ++ [.munmap 4096 4, .buffer_destroy 13,
          .layer_surface_destroy 11, .surface_destroy 10, .display_disconnect 1] ∧
        ∀ c ∈ p, c.isRelease = false :=
  ⟨by decide, rfl,
    (signal_teardown_once_in_order sample_world (by decide) [([.configure 8 1920 1080], 1)] []
      [.signal .SIGTERM] 0 rfl .SIGTERM (by decide)).1,
    ((signal_teardown_once_in_order sample_world (by decide) [([.configure 8 1920 1080], 1)] []
      [.signal .SIGTERM] 0 rfl .SIGTERM (by decide)).2.2.2 (by decide) (by decide)
      (by decide)).1,
    ((signal_teardown_once_in_order sample_world (by decide) [([.configure 8 1920 1080], 1)] []
      [.signal .SIGTERM] 0 rfl .SIGTERM (by decide)).2.2.2 (by decide) (by decide)
      (by decide)).2,
    (signal_teardown_once_in_order sample_world (by decide) [([.configure 8 1920 1080], 1)] []
      [.signal .SIGTERM] 0 rfl .SIGTERM (by decide)).2.1⟩

/-- C5 as stated fails: on a server whose setup succeeds, that sends no signal and no
`closed` event and whose second dispatch returns -1, `main` returns 0 with `running`
still 1. -/
theorem dispatch_error_exits_zero :
    SetupSucceeds world_dispatch_error ∧
      ¬ world_dispatch_error.delivers_stop ∧
      world_dispatch_error.loop = [([.configure 8 1920 1080], 1), ([], -1)] ∧
      (main world_dispatch_error).st.running = 1 ∧
      ¬ ((main world_dispatch_error).status ≠ some 0) := by
  refine ⟨by decide, ?_, rfl, by decide, by decide⟩
  rintro ⟨e, hs, he⟩
  simp only [world_dispatch_error, sample_world, List.mem_cons, List.mem_singleton,
    List.not_mem_nil, or_false, exists_eq_or_imp, exists_eq_left, false_or] at he
  rcases he with (rfl | rfl | rfl | rfl) | rfl | rfl <;> simp [Event.isStop] at hs

/-- C5, amended: in a run whose setup succeeds and in which no signal and no `closed` event
arrives before a call of `wl_display_dispatch` returns -1, the loop is left with
`running` still 1 and `main` returns 0 after the five releases in the order of lines
209-213, none of which occurs earlier.  Status 0 is returned only by runs whose setup
succeeded and in which a dispatch returned -1 or a signal or a `closed` event arrived. -/
theorem dispatch_error_teardown (w : World) (h : SetupSucceeds w)
    (pre post : List (List Event × Int)) (evs : List Event)
    (hloop : w.loop = pre ++ (evs, -1) :: post)
    (hpre : ∀ s ∈ pre, s.2 ≠ -1 ∧ ∀ e ∈ s.1, e.isStop = false)
    (h1 : ∀ e ∈ w.roundtrip1, e.isStop = false) (h2 : ∀ e ∈ w.roundtrip2, e.isStop = false)
    (hevs : ∀ e ∈ evs, e.isStop = false) :
    ((main w).status = some 0 ∧ (main w).st.running = 1 ∧
      ∃ p T, (main w).st.trace = p ++ .display_dispatch w.display (-1) :: T ++
          [.munmap w.mmap 4, .buffer_destroy w.buffer, .layer_surface_destroy w.layer_surface,
            .surface_destroy w.surface, .display_disconnect w.display] ∧
        (∀ c ∈ p ++ T, c.isRelease = false) ∧ ∀ c ∈ T, c.isDispatch = false) ∧
    ∀ w2 : World, (main w2).status = some 0 →
      SetupSucceeds w2 ∧ ((∃ s ∈ w2.loop, s.2 = -1) ∨ w2.delivers_stop) := by
  refine ⟨?_, fun w2 => main_sized_status_zero 1 1 w2⟩
  have hent : (entered 1 1 w).running = 1 := by
    rcases entered_running 1 1 w with he | ⟨-, e, hs, he | he⟩
    · exact he
    · rw [h1 e he] at hs; simp at hs
    · rw [h2 e he] at hs; simp at hs
  have hent0 : (entered 1 1 w).running ≠ 0 := by rw [hent]; decide
  have hl : looped 1 1 w = (true, wl_display_dispatch w
      (event_loop w w.display pre (entered 1 1 w)).2 w.display evs (-1)) := by
    simp only [looped, hloop]
    exact event_loop_error w w.display pre post evs _ hent0 hpre
  have hx : (looped 1 1 w).1 = true := by rw [hl]
  obtain ⟨hs, hr, ht⟩ := main_sized_exit 1 1 w h hx
  have hpr : (event_loop w w.display pre (entered 1 1 w)).2.running = 1 := by
    rcases event_loop_running w w.display pre (entered 1 1 w) with hq | ⟨-, s, hs, e, he, hst⟩
    · rw [hq, hent]
    · rw [(hpre s hs).2 e he] at hst; simp at hst
  obtain ⟨T, hT, hTc⟩ := frame_dispatch w w.display
    (event_loop w w.display pre (entered 1 1 w)).2 evs (-1)
  have htr : (looped 1 1 w).2.trace =
      (event_loop w w.display pre (entered 1 1 w)).2.trace ++
        .display_dispatch w.display (-1) :: T := by
    rw [hl]; exact hT.trace
  refine ⟨hs, ?_, (event_loop w w.display pre (entered 1 1 w)).2.trace, T, ?_, ?_, ?_⟩
  · show (main_sized 1 1 w).st.running = 1
    rw [hr, hl]
    rcases deliver_running w (call (.display_dispatch w.display (-1))
      (event_loop w w.display pre (entered 1 1 w)).2) evs with hq | ⟨-, e, he, hst⟩
    · simp only [wl_display_dispatch]; rw [hq]; exact hpr
    · rw [hevs e he] at hst; simp at hst
  · show (main_sized 1 1 w).st.trace = _
    rw [ht, htr, teardown_calls_main]
  · intro c hc
    apply looped_not_release 1 1 w
    rw [htr]
    rcases List.mem_append.1 hc with hc | hc
    · exact List.mem_append_left _ hc
    · exact List.mem_append_right _ (List.mem_cons_of_mem _ hc)
  · intro c hc
    rcases hTc c hc with hb | ⟨s, n, -, rfl⟩
    · exact (Call.not_other_of_isBind c hb).2.1
    · rfl

/-- C5 amended, on the server whose second dispatch returns -1. -/
theorem dispatch_error_teardown_witness :
    SetupSucceeds world_dispatch_error ∧
      world_dispatch_error.loop = [([.configure 8 1920 1080], 1)] ++ ([], -1) :: [] ∧
      (main world_dispatch_error).status = some 0 ∧
      (main world_dispatch_error).st.running = 1 :=
  ⟨by decide, rfl,
    (dispatch_error_teardown world_dispatch_error (by decide)
      [([.configure 8 1920 1080], 1)] [] [] rfl (by decide) (by decide) (by decide)
      (by decide)).1.1,
    (dispatch_error_teardown world_dispatch_error (by decide)
      [([.configure 8 1920 1080], 1)] [] [] rfl (by decide) (by decide) (by decide)
      (by decide)).1.2.1⟩

/-- C10: `running` is 1 at program start; delivering an event either leaves it as it is or
sets it to 0, and the latter only for a signal or a `closed` event; at the end of every
run it is 1, or it is 0 and the world delivered a signal or a `closed` event (during a
call that returned, or a signal during the dispatch that never returns); with
`running` equal to 0 the loop is left without any call of `wl_display_dispatch`; and in
a run whose setup succeeds and in which a signal arrives during one of the two
round-trips, or `closed` during the second, no dispatch is ever called, the five
releases are made in order and `main` returns 0. -/
theorem running_only_stops (w : World) :
    State.init.running = 1 ∧
    (∀ (st : State) (e : Event),
      (dispatch_event w st e).running = st.running ∨
        ((dispatch_event w st e).running = 0 ∧ e.isStop = true)) ∧
    (∀ (st : State) (evs : List Event), st.running = 0 → (deliver w evs st).running = 0) ∧
    ((main w).st.running = 1 ∨
      ((main w).st.running = 0 ∧ (w.delivers_stop ∨ w.last ≠ []))) ∧
    (∀ (d : Handle) (steps : List (List Event × Int)) (st : State),
      st.running = 0 → event_loop w d steps st = (true, st)) ∧
    (SetupSucceeds w →
      ((∃ sig, Event.signal sig ∈ w.roundtrip1 ++ w.roundtrip2) ∨ Event.closed ∈ w.roundtrip2) →
      (main w).status = some 0 ∧ (∀ c ∈ (main w).st.trace, c.isDispatch = false) ∧
        ∃ pre, (main w).st.trace = pre ++ [.munmap w.mmap 4, .buffer_destroy w.buffer,
            .layer_surface_destroy w.layer_surface, .surface_destroy w.surface,
            .display_disconnect w.display] ∧
          ∀ c ∈ pre, c.isRelease = false) := by
  refine ⟨rfl, dispatch_event_running w, fun st evs h0 => deliver_running_zero w st evs h0,
    main_sized_running 1 1 w, fun d steps st h0 => event_loop_stopped w d steps st h0, ?_⟩
  intro h hstop
  have hent : (entered 1 1 w).running = 0 := by
    simp only [entered, wl_display_roundtrip]
    rcases hstop with ⟨sig, hsig⟩ | hc
    · rcases List.mem_append.1 hsig with h1 | h2
      · apply deliver_running_zero
        simp only [call_running, committed_running]
        simp only [discovered, discover, wl_display_roundtrip]
        exact deliver_signal w _ w.roundtrip1 sig h1
      · exact deliver_signal w _ w.roundtrip2 sig h2
    · exact deliver_closed w _ w.roundtrip2 w.layer_surface rfl hc
  have hl : looped 1 1 w = (true, entered 1 1 w) :=
    event_loop_stopped w w.display w.loop _ hent
  have hx : (looped 1 1 w).1 = true := by rw [hl]
  obtain ⟨hs, -, ht⟩ := main_sized_exit 1 1 w h hx
  have ht1 : (main w).st.trace = (entered 1 1 w).trace ++ [.munmap w.mmap 4,
      .buffer_destroy w.buffer, .layer_surface_destroy w.layer_surface,
      .surface_destroy w.surface, .display_disconnect w.display] := by
    show (main_sized 1 1 w).st.trace = _
    rw [ht, hl, teardown_calls_main]
  refine ⟨hs, ?_, (entered 1 1 w).trace, ht1, ?_⟩
  · intro c hc
    rw [ht1] at hc
    rcases List.mem_append.1 hc with hc | hc
    · exact entered_not_dispatch 1 1 w c hc
    · simp only [List.mem_cons, List.mem_singleton, List.not_mem_nil, or_false] at hc
      rcases hc with rfl | rfl | rfl | rfl | rfl <;> rfl
  · intro c hc
    apply looped_not_release 1 1 w
    rw [hl]; exact hc

/-- C10, on the server that closes the layer surface during the second round-trip: the
loop body never runs and the run ends with status 0. -/
theorem running_only_stops_witness :
    SetupSucceeds world_closed_early ∧ Event.closed ∈ world_closed_early.roundtrip2 ∧
      (main world_closed_early).status = some 0 ∧
      (∀ c ∈ (main world_closed_early).st.trace, c.isDispatch = false) ∧
      (main world_closed_early).st.running = 0 :=
  ⟨by decide, by decide,
    ((running_only_stops world_closed_early).2.2.2.2.2 (by decide)
      (Or.inr (by decide))).1,
    ((running_only_stops world_closed_early).2.2.2.2.2 (by decide)
      (Or.inr (by decide))).2.1,
    by decide⟩

/-- C6: in a run that connects and binds the three capabilities, if creating the surface,
creating the layer surface, creating the memory file, resizing it or mapping it
fails, `main` returns 1; the objects released (file descriptor, layer surface, surface,
connection) are exactly the objects created, each released once, in the reverse of
the order of creation; and no attach or commit is sent. -/
theorem setup_failure_releases_in_reverse (w : World) (hd : w.display ≠ 0)
    (hc : (bound w).compositor ≠ 0) (hl : (bound w).layer_shell ≠ 0)
    (hs : (bound w).shm ≠ 0)
    (hf : w.surface = 0 ∨ w.layer_surface = 0 ∨ w.memfd < 0 ∨ w.ftruncate < 0 ∨
      w.mmap = MAP_FAILED) :
    (main w).status = some 1 ∧
      (main w).st.trace.filterMap Call.releases =
        ((main w).st.trace.filterMap Call.creates).reverse ∧
      ((main w).st.trace.filterMap Call.releases).Nodup ∧
      ∀ c ∈ (main w).st.trace, c.isAttachOrCommit = false := by
  have hfail : ¬ SetupSucceeds w := by
    rintro ⟨-, -, -, -, h5, h6, h7, h8, h9⟩
    rcases hf with h | h | h | h | h
    · exact h5 h
    · exact h6 h
    · exact absurd h (not_lt.2 h7)
    · exact absurd h (not_lt.2 h8)
    · exact h9 h
  obtain ⟨st, hst, hna, -⟩ := setup_error 1 1 w hfail
  have hmain : main w = ⟨some 1, st⟩ := by simp only [main, main_sized, hst]
  obtain ⟨r1, r2⟩ := discovered_resources w hd
  simp only [bound, discovered] at hc hl hs r1 r2
  have hb : ¬ ((discover w (call (.display_connect w.display) (install_handlers State.init))
      w.display).rd.compositor = 0 ∨ (discover w (call (.display_connect w.display)
      (install_handlers State.init)) w.display).rd.layer_shell = 0 ∨
      (discover w (call (.display_connect w.display) (install_handlers State.init))
      w.display).rd.shm = 0) := by
    rintro (h | h | h)
    · exact hc h
    · exact hl h
    · exact hs h
  rw [hmain]
  refine ⟨rfl, ?_, ?_, hna⟩
  all_goals
    clear hna hmain hfail hf
    simp only [setup, hd, hb, if_false] at hst
    split_ifs at hst
    all_goals
      injection hst with hst
      subst hst
      simp only [not_lt] at *
      simp [List.filterMap_append, List.filterMap_cons, r1, r2, Call.creates, Call.releases,
        configure_role, *]

/-- C6, on the server where resizing the memory file fails: the file descriptor, the layer
surface, the surface and the connection are released, in this order. -/
theorem setup_failure_releases_in_reverse_witness :
    world_ftruncate_fails.ftruncate < 0 ∧
      (main world_ftruncate_fails).status = some 1 ∧
      (main world_ftruncate_fails).st.trace.filterMap Call.releases =
        [.fd 5, .layer_surface 11, .surface 10, .connection 1] ∧
      (main world_ftruncate_fails).st.trace.filterMap Call.releases =
        ((main world_ftruncate_fails).st.trace.filterMap Call.creates).reverse :=
  ⟨by decide,
    (setup_failure_releases_in_reverse world_ftruncate_fails (by decide) (by decide)
      (by decide) (by decide) (by decide)).1,
    by decide,
    (setup_failure_releases_in_reverse world_ftruncate_fails (by decide) (by decide)
      (by decide) (by decide) (by decide)).2.1⟩

/-- C7: for a width and a height that are positive and whose product times 4 fits a C
`int`, in a run whose setup succeeds the stride passed to the buffer is `width * 4`,
the size passed to `ftruncate`, `mmap`, `memset` and the pool is `width * height * 4`,
the mapped region holds that many zero bytes right after the `memset`, and it holds
them after every later call up to the `munmap`: the log is `A`, the `memset`, `B`, `C`
where every entry of `B` shows the zeros and is no release, and `C` is empty (the
program is blocked in a dispatch) or is the five releases of the cleanup, starting
with the `munmap`. -/
theorem buffer_zero_until_unmap (width height : Int) (w : World) (hw : 0 < width)
    (hh : 0 < height) (hsz : width * height * 4 < 2147483648) (h : SetupSucceeds w) :
    ∃ (A B C : List (Call × Option (List Nat))),
      (main_sized width height w).st.log =
        A ++ (.memset w.mmap 0 (width * height * 4),
          some (List.replicate (width * height * 4).toNat 0)) :: B ++ C ∧
      (.ftruncate w.memfd (width * height * 4) w.ftruncate, none) ∈ A ∧
      (.mmap (width * height * 4) (PROT_READ ||| PROT_WRITE) MAP_SHARED w.memfd 0 w.mmap,
        some ((List.range (width * height * 4).toNat).map w.mapped)) ∈ A ∧
      (.shm_create_pool (bound w).shm w.memfd (width * height * 4) w.pool,
        some (List.replicate (width * height * 4).toNat 0)) ∈ B ∧
      (.shm_pool_create_buffer w.pool 0 width height (width * 4) WL_SHM_FORMAT_ARGB8888
        w.buffer, some (List.replicate (width * height * 4).toNat 0)) ∈ B ∧
      (∀ x ∈ A, ∀ data n, x.1 ≠ .memset data 0 n) ∧
      (∀ x ∈ B, x.2 = some (List.replicate (width * height * 4).toNat 0) ∧
        x.1.isRelease = false) ∧
      (C = [] ∨ C = [(.munmap w.mmap (width * height * 4), none),
        (.buffer_destroy w.buffer, none), (.layer_surface_destroy w.layer_surface, none),
        (.surface_destroy w.surface, none), (.display_disconnect w.display, none)]) := by
  obtain ⟨e1, e2⟩ := stride_size_supported width height hw hh hsz
  rw [e1] at e2
  obtain ⟨T1, TE, C, hlog, h1, hE, hC, -⟩ := main_sized_log width height w h
  refine ⟨(discover_calls w ++ T1).map (fun c => (c, none)) ++
      (setup_log width height w).take 10,
    (setup_log width height w).drop 11 ++
      TE.map (fun c => (c, some (zeros width height))), C, ?_, ?_, ?_, ?_, ?_, ?_, ?_, ?_⟩
  · rw [hlog]
    simp [setup_log, zeros, e1, e2]
  · simp [setup_log, e1, e2]
  · simp [setup_log, e1, e2]
  · simp [setup_log, zeros, e1, e2]
  · simp [setup_log, zeros, e1, e2]
  · intro x hx data n
    rcases List.mem_append.1 hx with hx | hx
    · obtain ⟨c, hc, rfl⟩ := List.mem_map.1 hx
      rcases List.mem_append.1 hc with hc | hc
      · simp only [discover_calls, List.mem_cons, List.mem_singleton, List.not_mem_nil,
          or_false] at hc
        rcases hc with rfl | rfl | rfl | rfl | rfl | rfl <;> simp
      · intro hm
        have := h1 c hc
        simp only at hm
        rw [hm] at this
        exact Bool.noConfusion this
    · simp only [setup_log, List.take, List.mem_cons, List.mem_singleton, List.not_mem_nil,
        or_false] at hx
      rcases hx with rfl | rfl | rfl | rfl | rfl | rfl | rfl | rfl | rfl | rfl <;> simp
  · intro x hx
    rcases List.mem_append.1 hx with hx | hx
    · simp only [setup_log, List.drop, List.mem_cons, List.mem_singleton, List.not_mem_nil,
        or_false] at hx
      rcases hx with rfl | rfl | rfl | rfl | rfl | rfl <;>
        exact ⟨by simp [zeros, e1, e2], rfl⟩
    · obtain ⟨c, hc, rfl⟩ := List.mem_map.1 hx
      exact ⟨by simp [zeros, e1, e2], (Call.not_other_of_isListening c (hE c hc)).1⟩
  · simpa [teardown_calls, e1, e2] using hC

/-- C7, for the 1x1 buffer of the program on the sample server: stride 4, size 4, four zero
bytes from the `memset` to the `munmap`. -/
theorem buffer_zero_until_unmap_witness :
    SetupSucceeds sample_world ∧
      (main sample_world).st.log.drop 19 =
        [(.memset 4096 0 4, some [0, 0, 0, 0]),
          (.shm_create_pool 4 5 4 12, some [0, 0, 0, 0]),
          (.shm_pool_create_buffer 12 0 1 1 4 0 13, some [0, 0, 0, 0]),
          (.shm_pool_destroy 12, some [0, 0, 0, 0]), (.close 5, some [0, 0, 0, 0]),
          (.surface_attach 10 13 0 0, some [0, 0, 0, 0]),
          (.surface_commit 10, some [0, 0, 0, 0]),
          (.display_roundtrip 1, some [0, 0, 0, 0]), (.ack_configure 11 7, some [0, 0, 0, 0]),
          (.display_dispatch 1 1, some [0, 0, 0, 0]), (.ack_configure 11 8, some [0, 0, 0, 0]),
          (.display_dispatch 1 0, some [0, 0, 0, 0]), (.munmap 4096 4, none),
          (.buffer_destroy 13, none), (.layer_surface_destroy 11, none),
          (.surface_destroy 10, none), (.display_disconnect 1, none)] ∧
      ∃ (A B C : List (Call × Option (List Nat))),
        (main sample_world).st.log =
          A ++ (.memset 4096 0 4, some [0, 0, 0, 0]) :: B ++ C ∧
        (∀ x ∈ B, x.2 = some [0, 0, 0, 0] ∧ x.1.isRelease = false) :=
  ⟨by decide, by decide,
    (buffer_zero_until_unmap 1 1 sample_world (by decide) (by decide) (by decide)
      (by decide)).imp fun _ hA => hA.imp fun _ hB => hB.imp fun _ hC => ⟨hC.1, hC.2.2.2.2.2.2.1⟩⟩

/-- C8: whenever the trace of a run contains a commit, the layer surface was created
(non-null) by `get_layer_surface` with a null output and the overlay layer, and the
trace is: some calls, then `get_layer_surface`, `set_size(0, 0)`, `set_anchor` with
top, bottom, left and right (the value 1 + 2 + 4 + 8), `set_exclusive_zone(-1)`,
`set_keyboard_interactivity(0)` and `add_listener` on that layer surface, then some
calls, then the commit of the surface, then the rest; no other call of the trace is
a commit, so these requests precede the first commit. -/
theorem role_configured_before_commit (w : World) (s : Handle)
    (hcommit : Call.surface_commit s ∈ (main w).st.trace) :
    w.layer_surface ≠ 0 ∧
    ZWLR_LAYER_SURFACE_V1_ANCHOR_TOP ||| ZWLR_LAYER_SURFACE_V1_ANCHOR_BOTTOM |||
      ZWLR_LAYER_SURFACE_V1_ANCHOR_LEFT ||| ZWLR_LAYER_SURFACE_V1_ANCHOR_RIGHT =
        1 + 2 + 4 + 8 ∧
    ∃ pre mid post : List Call,
      (main w).st.trace = pre ++
        [.get_layer_surface (bound w).layer_shell w.surface 0
            ZWLR_LAYER_SHELL_V1_LAYER_OVERLAY "dotfiles-idle-blur" w.layer_surface,
          .set_size w.layer_surface 0 0,
          .set_anchor w.layer_surface
            (ZWLR_LAYER_SURFACE_V1_ANCHOR_TOP ||| ZWLR_LAYER_SURFACE_V1_ANCHOR_BOTTOM |||
              ZWLR_LAYER_SURFACE_V1_ANCHOR_LEFT ||| ZWLR_LAYER_SURFACE_V1_ANCHOR_RIGHT),
          .set_exclusive_zone w.layer_surface (-1),
          .set_keyboard_interactivity w.layer_surface 0,
          .layer_surface_add_listener w.layer_surface] ++ mid ++
        .surface_commit w.surface :: post ∧
      ∀ c ∈ pre ++ mid ++ post, c.isCommit = false := by
  by_cases h : SetupSucceeds w
  · refine ⟨h.2.2.2.2.2.1, by decide, ?_⟩
    obtain ⟨T1, TE, C, hlog, h1, hE, hC, -⟩ := main_sized_log 1 1 w h
    have hlog1 : (main w).st.log = _ := hlog
    refine ⟨discover_calls w ++ T1 ++
        [.compositor_create_surface (bound w).compositor w.surface],
      ((setup_log 1 1 w).map Prod.fst).drop 7 |>.take 9, TE ++ C.map Prod.fst, ?_, ?_⟩
    · simp [State.trace, hlog1, setup_log, Function.comp_def]
    · intro c hc
      simp only [List.mem_append] at hc
      rcases hc with ((((hc | hc) | hc) | hc) | (hc | hc))
      · simp only [discover_calls, List.mem_cons, List.mem_singleton, List.not_mem_nil,
          or_false] at hc
        rcases hc with rfl | rfl | rfl | rfl | rfl | rfl <;> rfl
      · exact Call.isCommit_false c (Call.not_other_of_isBind c (h1 c hc)).2.2.1
      · simp only [List.mem_singleton] at hc
        rw [hc]; rfl
      · simp only [setup_log, List.map, List.drop, List.take, List.mem_cons,
          List.mem_singleton, List.not_mem_nil, or_false] at hc
        rcases hc with rfl | rfl | rfl | rfl | rfl | rfl | rfl | rfl | rfl <;> rfl
      · exact Call.isCommit_false c (Call.not_other_of_isListening c (hE c hc)).2.1
      · rcases hC with rfl | rfl
        · simp at hc
        · simp only [teardown_calls, List.map, List.mem_cons, List.mem_singleton,
            List.not_mem_nil, or_false] at hc
          rcases hc with rfl | rfl | rfl | rfl | rfl <;> rfl
  · obtain ⟨st, hst, hna, -⟩ := setup_error 1 1 w h
    have hmain : main w = ⟨some 1, st⟩ := by simp only [main, main_sized, hst]
    rw [hmain] at hcommit
    exact Bool.noConfusion (hna _ hcommit)

/-- C8, on the sample server. -/
theorem role_configured_before_commit_witness :
    Call.surface_commit 10 ∈ (main sample_world).st.trace ∧
      (main sample_world).st.trace.take 26 =
        [.signal .SIGTERM, .signal .SIGINT, .display_connect 1, .display_get_registry 1 2,
          .registry_add_listener 2, .display_roundtrip 1,
          .registry_bind 2 1 "wl_compositor" 4 3, .registry_bind 2 2 "wl_shm" 1 4,
          .registry_bind 2 3 "zwlr_layer_shell_v1" 4 5, .compositor_create_surface 3 10,
          .get_layer_surface 5 10 0 3 "dotfiles-idle-blur" 11, .set_size 11 0 0,
          .set_anchor 11 15, .set_exclusive_zone 11 (-1), .set_keyboard_interactivity 11 0,
          .layer_surface_add_listener 11, .memfd_create "dotfiles-idle-blur" 3 5,
          .ftruncate 5 4 0, .mmap 4 3 1 5 0 4096, .memset 4096 0 4,
          .shm_create_pool 4 5 4 12, .shm_pool_create_buffer 12 0 1 1 4 0 13,
          .shm_pool_destroy 12, .close 5, .surface_attach 10 13 0 0, .surface_commit 10] ∧
      sample_world.layer_surface ≠ 0 :=
  ⟨by decide, by decide, (role_configured_before_commit sample_world 10 (by decide)).1⟩

end IdleBlurOverlay
